import Mathlib

/-!
Verification of the intent-resolution and resilient-execution pipeline of the
Sheets-Agent QuickBooks integration (source files: `OpenAIService.js`,
`Utils.js`, and the QuickBooks API integration file).

The JavaScript source is shallowly embedded: JS objects become Lean
structures with `Option`-valued fields (`none` models an absent/undefined
field), JS falsiness of string-valued fields is modelled by `jsFalsy`
(absent or empty string), thrown exceptions become `Except String` values
carrying the thrown message, and the external world (HTTP fetches, OAuth
refresh outcomes, entity-query results) is modelled as oracle functions
inside an explicit environment record that is threaded through the
computation.  Scalar JS values that flow into report cells (numbers,
strings) are modelled as strings; audit logging (`logAction`, `console.*`)
is modelled as a no-op, matching the specification's requirement that the
audit sink never fails the pipeline.
-/

/-! ## JavaScript-style helpers -/

/-- Falsiness of an optional string-valued JS field: `undefined`/missing or
the empty string are falsy (models the JS `!x` test on string fields). -/
def jsFalsy : Option String → Bool
  | none => true
  | some s => s = ""

/-- JS short-circuit `a || b` on string-valued fields. -/
def jsOr (a b : Option String) : Option String := if jsFalsy a then b else a

/-- JS template interpolation of a possibly-undefined field
(an undefined value renders as the string `undefined`). -/
def jsStr (o : Option String) : String := o.getD "undefined"

/-- Matching of `needle` at the start of `hay` (character lists). -/
def charsStart : List Char → List Char → Bool
  | [], _ => true
  | _ :: _, [] => false
  | n :: ns, c :: cs => n == c && charsStart ns cs

/-- Occurrence of `needle` anywhere in `hay` (character lists). -/
def charsHas (needle : List Char) : List Char → Bool
  | [] => needle.isEmpty
  | c :: t => charsStart needle (c :: t) || charsHas needle t

/-- Substring test modelling the JS `String.prototype.includes` used in the
error-classification checks (`error.message.includes('…')`). -/
def strContains (hay needle : String) : Bool := charsHas needle.data hay.data

/-- Test modelling the JS `s.startsWith('/')` check on API endpoint paths:
the first character is a slash. -/
def startsWithSlash (s : String) : Bool := s.data.head? == some '/'

/-! ## Calendar dates

Dates are modelled as plain calendar dates; the script time zone and the
formatting time zone are identified (both `GMT` in the source), so
`new Date(y, m, d)` followed by `Utilities.formatDate(date, 'GMT',
'yyyy-MM-dd')` is calendar arithmetic plus decimal formatting.  Months are
1-based here (the JS `Date` API is 0-based). -/

/-- Calendar date (year, 1-based month, day). -/
structure SDate where
  year : Nat
  month : Nat
  day : Nat
  deriving DecidableEq, Repr

/-- Leap-year rule used by the JS `Date` type. -/
def isLeapYear (y : Nat) : Bool := y % 4 = 0 && (y % 100 ≠ 0 || y % 400 = 0)

/-- Number of days of month `m` of year `y`; this is what the JS idiom
`new Date(y, m + 1, 0).getDate()` computes for the 0-based month `m - 1`. -/
def daysInMonth (y m : Nat) : Nat :=
  if m = 2 then (if isLeapYear y then 29 else 28)
  else if m = 4 ∨ m = 6 ∨ m = 9 ∨ m = 11 then 30
  else 31

/-- Two-digit zero-padded decimal rendering. -/
def pad2 (n : Nat) : String := if n < 10 then "0" ++ toString n else toString n

/-- Rendering of a calendar date in the `yyyy-MM-dd` pattern of
`Utilities.formatDate(date, 'GMT', 'yyyy-MM-dd')`. -/
def fmtDate (y m d : Nat) : String := toString y ++ "-" ++ pad2 m ++ "-" ++ pad2 d

theorem fmtDate_ne_empty (y m d : Nat) : fmtDate y m d ≠ "" := by
  intro h
  have h2 := congrArg String.length h
  simp [fmtDate, String.length_append] at h2
  exact absurd h2.1.1.1.2 (by decide)

theorem jsFalsy_fmtDate (y m d : Nat) : jsFalsy (some (fmtDate y m d)) = false := by
  simp [jsFalsy, fmtDate_ne_empty]

/-! ## Intent data model (OpenAIService.js)

The structured intent produced by the NLU backend and consumed by
`validateAndNormalizeIntent` (OpenAIService.js lines 178-236).  Only the
fields that function reads or writes are modelled; the JS field `type` is
called `itype` because `type` is reserved in Lean. -/

/-- The `filters` sub-object of an intent. -/
structure IFilters where
  startDate : Option String
  endDate : Option String
  deriving DecidableEq, Repr

/-- The `parameters` sub-object of an intent (the fields read or written by
the normalizer and its explanation generator). -/
structure IParams where
  usedDefaultDates : Option Bool
  range : Option String
  name : Option String
  sheetName : Option String
  deriving DecidableEq, Repr

/-- A structured intent (raw or normalized). -/
structure Intent where
  itype : Option String
  action : Option String
  entity : Option String
  filters : Option IFilters
  parameters : Option IParams
  destination : Option String
  qboApiCall : Option String
  sheetsApiCall : Option String
  explanation : Option String
  text : Option String
  deriving DecidableEq, Repr

/-- Empty `filters` object (JS `{}`). -/
def fdef : IFilters := ⟨none, none⟩

/-- Empty `parameters` object (JS `{}`). -/
def pdef : IParams := ⟨none, none, none, none⟩

/-- Embedding of `generateExplanation` (OpenAIService.js lines 244-294): a
switch on the intent type producing a human-readable description.  The JS
`try`/`catch` wrapper is dropped because no branch of the body can throw in
this model. -/
def generateExplanation (intent : Intent) : String :=
  let fs := intent.filters.getD fdef
  let ps := intent.parameters.getD pdef
  if intent.itype = some "fetch" then
    if intent.action = some "report" then
      let dateRange :=
        if ¬jsFalsy fs.startDate ∧ ¬jsFalsy fs.endDate then
          " from " ++ jsStr fs.startDate ++ " to " ++ jsStr fs.endDate
        else ""
      let destination :=
        if ¬jsFalsy intent.destination then " and place it in " ++ jsStr intent.destination
        else ""
      "Fetch the " ++ jsStr intent.entity ++ " report" ++ dateRange ++ destination
    else if intent.action = some "query" ∨ intent.action = some "entity" then
      let entityName := jsStr (jsOr intent.entity (some "data"))
      let destination :=
        if ¬jsFalsy intent.destination then " and place it in " ++ jsStr intent.destination
        else ""
      "Fetch " ++ entityName ++ " from QuickBooks" ++ destination
    else "Process the request: " ++ jsStr intent.text
  else if intent.itype = some "create" then
    if intent.action = some "createSheet" then
      "Create a new sheet named \"" ++ jsStr (jsOr ps.name (some "new sheet")) ++ "\""
    else "Process the request: " ++ jsStr intent.text
  else if intent.itype = some "modify" then
    if intent.action = some "addRow" then
      "Add a new row to " ++ jsStr (jsOr ps.sheetName (some "the active sheet"))
    else if intent.action = some "clearRange" then
      "Clear " ++ jsStr (jsOr ps.range (some "the specified range")) ++ " in " ++
        jsStr (jsOr ps.sheetName (some "the active sheet"))
    else "Process the request: " ++ jsStr intent.text
  else if intent.itype = some "custom" then
    "Execute a custom operation using " ++
      (if ¬jsFalsy intent.qboApiCall then "QuickBooks API" else "") ++
      (if ¬jsFalsy intent.qboApiCall ∧ ¬jsFalsy intent.sheetsApiCall then " and " else "") ++
      (if ¬jsFalsy intent.sheetsApiCall then "Google Sheets API" else "")
  else if intent.itype = some "help" then
    "Provide help information about available commands"
  else if intent.itype = some "diagnostic" then
    "Run diagnostic tests on the QuickBooks connection"
  else "Process the request: " ++ jsStr intent.text

/-! ## The Intent Normalizer (`validateAndNormalizeIntent`)

The source function mutates the intent in place; the embedding composes one
pure step per source statement group, in source order.  The regular
expression that extracts a sheet name from the query text
(`originalQuery.match(/sheet(?:\s+named)?\s+["']?([a-zA-Z0-9 ]+)["']?/i)`)
is abstracted as an arbitrary extraction function `etf : String → Option
String` (`none` models a failed match); every theorem below is universally
quantified over it. -/

/-- Required-field defaulting and query storage
(OpenAIService.js lines 180-187). -/
def normDefaults (originalQuery : String) (i : Intent) : Intent :=
  { i with itype := jsOr i.itype (some "unknown"),
           action := jsOr i.action (some ""),
           entity := jsOr i.entity (some ""),
           filters := some (i.filters.getD fdef),
           parameters := some (i.parameters.getD pdef),
           text := some originalQuery }

/-- Current-month date defaulting for `fetch`/`report` intents with no date
range, with the `usedDefaultDates` marker (lines 190-203). -/
def normDates (today : SDate) (i : Intent) : Intent :=
  let fs := i.filters.getD fdef
  let ps := i.parameters.getD pdef
  if i.itype = some "fetch" ∧ i.action = some "report" ∧
      jsFalsy fs.startDate ∧ jsFalsy fs.endDate then
    { i with
      filters := some { fs with
        startDate := some (fmtDate today.year today.month 1),
        endDate := some (fmtDate today.year today.month (daysInMonth today.year today.month)) },
      parameters := some { ps with usedDefaultDates := some true } }
  else i

/-- Leading-slash normalization of the low-level API override
(lines 206-208). -/
def normQboPath (i : Intent) : Intent :=
  if ¬jsFalsy i.qboApiCall ∧ ¬startsWithSlash (i.qboApiCall.getD "") then
    { i with qboApiCall := some ("/" ++ i.qboApiCall.getD "") }
  else i

/-- Promotion of `unknown` intents with a low-level override to `custom`
(lines 211-213). -/
def normPromoteCustom (i : Intent) : Intent :=
  if (¬jsFalsy i.qboApiCall ∨ ¬jsFalsy i.sheetsApiCall) ∧ i.itype = some "unknown" then
    { i with itype := some "custom" }
  else i

/-- Inference of a basic `updateRange` write when a destination is present
but no sheets call was specified (lines 216-219). -/
def normDestination (i : Intent) : Intent :=
  if ¬jsFalsy i.destination ∧ jsFalsy i.sheetsApiCall then
    { i with sheetsApiCall := some "updateRange",
             parameters := some { (i.parameters.getD pdef) with range := i.destination } }
  else i

/-- Sheet-name defaulting for `createSheet` intents (lines 222-228), with the
query-text extraction abstracted as `etf`. -/
def normSheetName (etf : String → Option String) (originalQuery : String) (i : Intent) : Intent :=
  if i.action = some "createSheet" ∧ jsFalsy (i.parameters.getD pdef).name then
    { i with parameters := some { (i.parameters.getD pdef) with
        name := jsOr (jsOr i.entity (etf originalQuery)) (some "New Sheet") } }
  else i

/-- Explanation backfill (lines 231-233). -/
def normExplanation (i : Intent) : Intent :=
  if jsFalsy i.explanation then { i with explanation := some (generateExplanation i) }
  else i

/-- Embedding of `validateAndNormalizeIntent` (OpenAIService.js lines
178-236): the composition of the seven mutation groups in source order.
`today` models the clock read by `new Date()`. -/
def validateAndNormalizeIntent (etf : String → Option String) (today : SDate)
    (intent : Intent) (originalQuery : String) : Intent :=
  normExplanation (normSheetName etf originalQuery (normDestination (normPromoteCustom
    (normQboPath (normDates today (normDefaults originalQuery intent))))))

/-! ## Record-shape lemmas for the normalizer steps -/

theorem normDates_eq (today : SDate) (i : Intent) :
    normDates today i =
      { i with
        filters := if i.itype = some "fetch" ∧ i.action = some "report" ∧
            jsFalsy (i.filters.getD fdef).startDate ∧ jsFalsy (i.filters.getD fdef).endDate then
            some { (i.filters.getD fdef) with
              startDate := some (fmtDate today.year today.month 1),
              endDate := some (fmtDate today.year today.month
                (daysInMonth today.year today.month)) }
          else i.filters,
        parameters := if i.itype = some "fetch" ∧ i.action = some "report" ∧
            jsFalsy (i.filters.getD fdef).startDate ∧ jsFalsy (i.filters.getD fdef).endDate then
            some { (i.parameters.getD pdef) with usedDefaultDates := some true }
          else i.parameters } := by
  unfold normDates
  dsimp only
  split_ifs <;> rfl

theorem normQboPath_eq (i : Intent) :
    normQboPath i =
      { i with qboApiCall :=
          if ¬jsFalsy i.qboApiCall ∧ ¬startsWithSlash (i.qboApiCall.getD "") then
            some ("/" ++ i.qboApiCall.getD "")
          else i.qboApiCall } := by
  unfold normQboPath
  split_ifs <;> rfl

theorem normPromoteCustom_eq (i : Intent) :
    normPromoteCustom i =
      { i with itype :=
          if (¬jsFalsy i.qboApiCall ∨ ¬jsFalsy i.sheetsApiCall) ∧ i.itype = some "unknown" then
            some "custom"
          else i.itype } := by
  unfold normPromoteCustom
  split_ifs <;> rfl

theorem normDestination_eq (i : Intent) :
    normDestination i =
      { i with
        sheetsApiCall :=
          if ¬jsFalsy i.destination ∧ jsFalsy i.sheetsApiCall then some "updateRange"
          else i.sheetsApiCall,
        parameters :=
          if ¬jsFalsy i.destination ∧ jsFalsy i.sheetsApiCall then
            some { (i.parameters.getD pdef) with range := i.destination }
          else i.parameters } := by
  unfold normDestination
  split_ifs <;> rfl

theorem normSheetName_eq (etf : String → Option String) (q : String) (i : Intent) :
    normSheetName etf q i =
      { i with parameters :=
          if i.action = some "createSheet" ∧ jsFalsy (i.parameters.getD pdef).name then
            some { (i.parameters.getD pdef) with
              name := jsOr (jsOr i.entity (etf q)) (some "New Sheet") }
          else i.parameters } := by
  unfold normSheetName
  split_ifs <;> rfl

theorem normExplanation_eq (i : Intent) :
    normExplanation i =
      { i with explanation :=
          if jsFalsy i.explanation then some (generateExplanation i) else i.explanation } := by
  unfold normExplanation
  split_ifs <;> rfl

/-! ## Claim C5 -/

/-- C5: for every raw intent with kind `fetch` and action `report` whose
filters contain neither `startDate` nor `endDate`, the Intent Normalizer
sets `startDate` to the first and `endDate` to the last calendar day of the
current month (both in the calendar month of `today`), and records
`parameters.usedDefaultDates = true`. -/
theorem C5_report_default_dates (etf : String → Option String) (today : SDate)
    (q : String) (i : Intent)
    (ht : i.itype = some "fetch") (ha : i.action = some "report")
    (hsd : (i.filters.getD fdef).startDate = none)
    (hed : (i.filters.getD fdef).endDate = none) :
    ((validateAndNormalizeIntent etf today i q).filters.getD fdef).startDate =
        some (fmtDate today.year today.month 1) ∧
    ((validateAndNormalizeIntent etf today i q).filters.getD fdef).endDate =
        some (fmtDate today.year today.month (daysInMonth today.year today.month)) ∧
    ((validateAndNormalizeIntent etf today i q).parameters.getD pdef).usedDefaultDates =
        some true := by
  have hfetch : jsFalsy (some "fetch") = false := by decide
  have hreport : jsFalsy (some "report") = false := by decide
  simp only [validateAndNormalizeIntent, normDefaults, normExplanation_eq, normSheetName_eq,
    normDestination_eq, normPromoteCustom_eq, normQboPath_eq, normDates_eq,
    ht, ha, jsOr, hfetch, hreport, if_false, hsd, hed]
  simp [jsFalsy]
  split_ifs <;> simp_all

theorem C5_report_default_dates_witness :
    ((validateAndNormalizeIntent (fun _ => none) ⟨2024, 3, 15⟩
        ⟨some "fetch", some "report", none, none, none, none, none, none, none, none⟩
        "show my profit and loss").filters.getD fdef).startDate =
        some (fmtDate 2024 3 1) ∧
    ((validateAndNormalizeIntent (fun _ => none) ⟨2024, 3, 15⟩
        ⟨some "fetch", some "report", none, none, none, none, none, none, none, none⟩
        "show my profit and loss").filters.getD fdef).endDate =
        some (fmtDate 2024 3 (daysInMonth 2024 3)) ∧
    ((validateAndNormalizeIntent (fun _ => none) ⟨2024, 3, 15⟩
        ⟨some "fetch", some "report", none, none, none, none, none, none, none, none⟩
        "show my profit and loss").parameters.getD pdef).usedDefaultDates = some true :=
  C5_report_default_dates (fun _ => none) ⟨2024, 3, 15⟩ "show my profit and loss"
    ⟨some "fetch", some "report", none, none, none, none, none, none, none, none⟩
    rfl rfl rfl rfl

/-! ## Claim C6 -/

/-- Exactly one of the two normalized date filters is set (truthy): the
negation of the spec's both-or-neither invariant. -/
def exactlyOneDate (i : Intent) : Bool :=
  jsFalsy (i.filters.getD fdef).startDate != jsFalsy (i.filters.getD fdef).endDate

/-- C6 counterexample: a report-fetch intent whose raw filters carry a
`startDate` but no `endDate` is passed through the normalizer with exactly
one of the two dates set — the defaulting branch only fires when both are
missing, so the claimed both-or-neither invariant fails. -/
theorem C6_counterexample :
    exactlyOneDate (validateAndNormalizeIntent (fun _ => none) ⟨2024, 3, 15⟩
      ⟨some "fetch", some "report", none, some ⟨some "2024-01-01", none⟩, none, none, none,
        none, none, none⟩ "report since January") = true := by
  decide

/-- C6 (amended): the normalizer preserves the both-or-neither property of
the date filters: if the raw intent does not have exactly one of
`startDate`/`endDate` set, the normalized intent does not either (and when
both are missing on a `fetch`/`report` intent they are both filled with the
current-month defaults).  It does not establish the invariant for raw
intents that already carry exactly one date. -/
theorem C6_amended_both_or_neither (etf : String → Option String) (today : SDate)
    (q : String) (i : Intent) (h : exactlyOneDate i = false) :
    exactlyOneDate (validateAndNormalizeIntent etf today i q) = false := by
  simp only [validateAndNormalizeIntent, normExplanation_eq, normSheetName_eq,
    normDestination_eq, normPromoteCustom_eq, normQboPath_eq, normDates_eq, normDefaults,
    exactlyOneDate] at h ⊢
  split_ifs <;> simp_all [jsFalsy_fmtDate]

theorem C6_amended_both_or_neither_witness :
    exactlyOneDate (validateAndNormalizeIntent (fun _ => none) ⟨2024, 3, 15⟩
      ⟨some "fetch", some "report", none, none, none, none, none, none, none, none⟩
      "report please") = false :=
  C6_amended_both_or_neither (fun _ => none) ⟨2024, 3, 15⟩ "report please"
    ⟨some "fetch", some "report", none, none, none, none, none, none, none, none⟩ rfl

/-! ## Claim C7: idempotence analysis -/

theorem generateExplanation_ne_empty (i : Intent) : generateExplanation i ≠ "" := by
  unfold generateExplanation
  dsimp only
  split_ifs <;> (intro h; have h2 := congrArg String.data h; simp [String.data_append] at h2)

theorem jsFalsy_jsOr_default (o : Option String) (s : String) (hs : s ≠ "") :
    jsFalsy (jsOr o (some s)) = false := by
  cases o with
  | none => simp [jsOr, jsFalsy, hs]
  | some t =>
      by_cases ht : t = "" <;> simp [jsOr, jsFalsy, ht, hs]

theorem startsWithSlash_append (s : String) : startsWithSlash ("/" ++ s) = true := by
  simp [startsWithSlash, String.data_append]

/-- Abbreviated name for the normalizer in the lemmas below. -/
def vni (etf : String → Option String) (today : SDate) (i : Intent) (q : String) : Intent :=
  validateAndNormalizeIntent etf today i q

theorem vni_action (etf : String → Option String) (today : SDate) (i : Intent) (q : String) :
    (vni etf today i q).action = jsOr i.action (some "") := by
  simp [vni, validateAndNormalizeIntent, normExplanation_eq, normSheetName_eq,
    normDestination_eq, normPromoteCustom_eq, normQboPath_eq, normDates_eq, normDefaults]

theorem vni_entity (etf : String → Option String) (today : SDate) (i : Intent) (q : String) :
    (vni etf today i q).entity = jsOr i.entity (some "") := by
  simp [vni, validateAndNormalizeIntent, normExplanation_eq, normSheetName_eq,
    normDestination_eq, normPromoteCustom_eq, normQboPath_eq, normDates_eq, normDefaults]

theorem vni_text (etf : String → Option String) (today : SDate) (i : Intent) (q : String) :
    (vni etf today i q).text = some q := by
  simp [vni, validateAndNormalizeIntent, normExplanation_eq, normSheetName_eq,
    normDestination_eq, normPromoteCustom_eq, normQboPath_eq, normDates_eq, normDefaults]

theorem vni_destination (etf : String → Option String) (today : SDate) (i : Intent)
    (q : String) : (vni etf today i q).destination = i.destination := by
  simp [vni, validateAndNormalizeIntent, normExplanation_eq, normSheetName_eq,
    normDestination_eq, normPromoteCustom_eq, normQboPath_eq, normDates_eq, normDefaults]

theorem vni_filters_isSome (etf : String → Option String) (today : SDate) (i : Intent)
    (q : String) : (vni etf today i q).filters.isSome := by
  simp only [vni, validateAndNormalizeIntent, normExplanation_eq, normSheetName_eq,
    normDestination_eq, normPromoteCustom_eq, normQboPath_eq, normDates_eq, normDefaults]
  split_ifs <;> simp

theorem vni_parameters_isSome (etf : String → Option String) (today : SDate) (i : Intent)
    (q : String) : (vni etf today i q).parameters.isSome := by
  simp only [vni, validateAndNormalizeIntent, normExplanation_eq, normSheetName_eq,
    normDestination_eq, normPromoteCustom_eq, normQboPath_eq, normDates_eq, normDefaults]
  split_ifs <;> simp

/-- Value of the low-level API override after slash normalization. -/
def qboAfter (i : Intent) : Option String :=
  if ¬jsFalsy i.qboApiCall ∧ ¬startsWithSlash (i.qboApiCall.getD "") then
    some ("/" ++ i.qboApiCall.getD "")
  else i.qboApiCall

theorem vni_qboApiCall (etf : String → Option String) (today : SDate) (i : Intent)
    (q : String) : (vni etf today i q).qboApiCall = qboAfter i := by
  simp [vni, validateAndNormalizeIntent, normExplanation_eq, normSheetName_eq,
    normDestination_eq, normPromoteCustom_eq, normQboPath_eq, normDates_eq, normDefaults,
    qboAfter]

theorem vni_itype_eq (etf : String → Option String) (today : SDate) (i : Intent)
    (q : String) : (vni etf today i q).itype =
    if (¬jsFalsy (qboAfter i) ∨ ¬jsFalsy i.sheetsApiCall) ∧
        jsOr i.itype (some "unknown") = some "unknown" then some "custom"
    else jsOr i.itype (some "unknown") := by
  simp [vni, validateAndNormalizeIntent, normExplanation_eq, normSheetName_eq,
    normDestination_eq, normPromoteCustom_eq, normQboPath_eq, normDates_eq, normDefaults,
    qboAfter]

theorem vni_sheetsApiCall (etf : String → Option String) (today : SDate) (i : Intent)
    (q : String) : (vni etf today i q).sheetsApiCall =
    if ¬jsFalsy i.destination ∧ jsFalsy i.sheetsApiCall then some "updateRange"
    else i.sheetsApiCall := by
  simp [vni, validateAndNormalizeIntent, normExplanation_eq, normSheetName_eq,
    normDestination_eq, normPromoteCustom_eq, normQboPath_eq, normDates_eq, normDefaults]

theorem vni_filters_eq (etf : String → Option String) (today : SDate) (i : Intent)
    (q : String) : (vni etf today i q).filters =
    if jsOr i.itype (some "unknown") = some "fetch" ∧ jsOr i.action (some "") = some "report" ∧
        jsFalsy (i.filters.getD fdef).startDate ∧ jsFalsy (i.filters.getD fdef).endDate then
      some ⟨some (fmtDate today.year today.month 1),
            some (fmtDate today.year today.month (daysInMonth today.year today.month))⟩
    else some (i.filters.getD fdef) := by
  simp [vni, validateAndNormalizeIntent, normExplanation_eq, normSheetName_eq,
    normDestination_eq, normPromoteCustom_eq, normQboPath_eq, normDates_eq, normDefaults]

theorem vni_itype_nonfalsy (etf : String → Option String) (today : SDate) (i : Intent)
    (q : String) : jsFalsy (vni etf today i q).itype = false := by
  rw [vni_itype_eq]
  split_ifs with h
  · decide
  · exact jsFalsy_jsOr_default _ _ (by decide)

theorem vni_qbo_ok (etf : String → Option String) (today : SDate) (i : Intent) (q : String) :
    jsFalsy (vni etf today i q).qboApiCall = true ∨
      startsWithSlash ((vni etf today i q).qboApiCall.getD "") = true := by
  rw [vni_qboApiCall]
  unfold qboAfter
  split_ifs with h
  · right
    simp [startsWithSlash_append]
  · rcases not_and_or.mp h with h2 | h2
    · left
      simpa using h2
    · right
      simpa using h2

theorem vni_unknown_qbo (etf : String → Option String) (today : SDate) (i : Intent)
    (q : String) (h : (vni etf today i q).itype = some "unknown") :
    jsFalsy (vni etf today i q).qboApiCall = true := by
  rw [vni_qboApiCall]
  rw [vni_itype_eq] at h
  split_ifs at h with hc
  · simp at h
  · rcases not_and_or.mp hc with h2 | h2
    · rcases not_or.mp h2 with ⟨h3, _⟩
      simpa using h3
    · exact absurd h h2

theorem vni_unknown_sheets_in (etf : String → Option String) (today : SDate) (i : Intent)
    (q : String) (h : (vni etf today i q).itype = some "unknown") :
    jsFalsy i.sheetsApiCall = true := by
  rw [vni_itype_eq] at h
  split_ifs at h with hc
  · simp at h
  · rcases not_and_or.mp hc with h2 | h2
    · rcases not_or.mp h2 with ⟨_, h3⟩
      simpa using h3
    · exact absurd h h2

theorem vni_dest_sheets (etf : String → Option String) (today : SDate) (i : Intent)
    (q : String) (h : jsFalsy (vni etf today i q).destination = false) :
    jsFalsy (vni etf today i q).sheetsApiCall = false := by
  rw [vni_destination] at h
  rw [vni_sheetsApiCall]
  split_ifs with hc
  · decide
  · rcases not_and_or.mp hc with h2 | h2
    · simp [h] at h2
    · simpa using h2

theorem jsOr_nonfalsy (a b : Option String) (h : jsFalsy a = false) : jsOr a b = a := by
  simp [jsOr, h]

theorem jsOr_some_empty (a : String) : jsOr (some a) (some "") = some a := by
  by_cases h : a = "" <;> simp [jsOr, jsFalsy, h]

theorem vni_action_isSome (etf : String → Option String) (today : SDate) (i : Intent)
    (q : String) : (vni etf today i q).action.isSome = true := by
  rw [vni_action]
  cases i.action with
  | none => simp [jsOr, jsFalsy]
  | some a => rw [jsOr_some_empty]; rfl

theorem vni_entity_isSome (etf : String → Option String) (today : SDate) (i : Intent)
    (q : String) : (vni etf today i q).entity.isSome = true := by
  rw [vni_entity]
  cases i.entity with
  | none => simp [jsOr, jsFalsy]
  | some a => rw [jsOr_some_empty]; rfl

theorem vni_dates_ok (etf : String → Option String) (today : SDate) (i : Intent)
    (q : String) :
    ¬((vni etf today i q).itype = some "fetch" ∧ (vni etf today i q).action = some "report" ∧
      jsFalsy ((vni etf today i q).filters.getD fdef).startDate = true ∧
      jsFalsy ((vni etf today i q).filters.getD fdef).endDate = true) := by
  rintro ⟨hty, hac, hsd, hed⟩
  rw [vni_itype_eq] at hty
  rw [vni_action] at hac
  rw [vni_filters_eq] at hsd hed
  have hty2 : jsOr i.itype (some "unknown") = some "fetch" := by
    split_ifs at hty with h
    · simp at hty
    · exact hty
  by_cases hc : jsOr i.itype (some "unknown") = some "fetch" ∧
      jsOr i.action (some "") = some "report" ∧
      jsFalsy (i.filters.getD fdef).startDate = true ∧
      jsFalsy (i.filters.getD fdef).endDate = true
  · rw [if_pos (by exact_mod_cast hc)] at hsd
    simp [jsFalsy_fmtDate] at hsd
  · rw [if_neg (by exact_mod_cast hc)] at hsd hed
    exact hc ⟨hty2, hac, by simpa using hsd, by simpa using hed⟩

theorem vni_expl_nonfalsy (etf : String → Option String) (today : SDate) (i : Intent)
    (q : String) : jsFalsy (vni etf today i q).explanation = false := by
  simp only [vni, validateAndNormalizeIntent, normExplanation_eq]
  split_ifs with h
  · simp [jsFalsy, generateExplanation_ne_empty]
  · simpa using h

theorem vni_name_ok (etf : String → Option String) (today : SDate) (i : Intent)
    (q : String) (h : (vni etf today i q).action = some "createSheet") :
    jsFalsy ((vni etf today i q).parameters.getD pdef).name = false := by
  have hns : ∀ a, jsFalsy (jsOr a (some "New Sheet")) = false := fun a =>
    jsFalsy_jsOr_default a _ (by decide)
  rw [vni_action] at h
  simp only [vni, validateAndNormalizeIntent, normExplanation_eq, normSheetName_eq,
    normDestination_eq, normPromoteCustom_eq, normQboPath_eq, normDates_eq, normDefaults]
  split_ifs <;> simp_all [hns]

/-- Normalization is the identity on an intent that is already in fully
normalized shape (each mutation group's guard fails or its rewrite is
vacuous). -/
theorem norm_fixed (etf : String → Option String) (today : SDate) (q : String) (j : Intent)
    (h1 : jsFalsy j.itype = false)
    (h2 : j.action.isSome = true) (h3 : j.entity.isSome = true)
    (h4 : j.filters.isSome = true) (h5 : j.parameters.isSome = true)
    (h6 : j.text = some q)
    (h7 : ¬(j.itype = some "fetch" ∧ j.action = some "report" ∧
        jsFalsy (j.filters.getD fdef).startDate = true ∧
        jsFalsy (j.filters.getD fdef).endDate = true))
    (h8 : jsFalsy j.qboApiCall = true ∨ startsWithSlash (j.qboApiCall.getD "") = true)
    (h9 : ¬((¬(jsFalsy j.qboApiCall = true) ∨ ¬(jsFalsy j.sheetsApiCall = true)) ∧
        j.itype = some "unknown"))
    (h10 : ¬(¬(jsFalsy j.destination = true) ∧ jsFalsy j.sheetsApiCall = true))
    (h11 : ¬(j.action = some "createSheet" ∧ jsFalsy (j.parameters.getD pdef).name = true))
    (h12 : jsFalsy j.explanation = false) :
    validateAndNormalizeIntent etf today j q = j := by
  obtain ⟨ty, ac, en, fi, pa, de, qb, sh, ex, tx⟩ := j
  simp only at h1 h2 h3 h4 h5 h6 h7 h8 h9 h10 h11 h12
  rcases Option.isSome_iff_exists.mp h2 with ⟨a, rfl⟩
  rcases Option.isSome_iff_exists.mp h3 with ⟨e, rfl⟩
  rcases Option.isSome_iff_exists.mp h4 with ⟨f, rfl⟩
  rcases Option.isSome_iff_exists.mp h5 with ⟨p, rfl⟩
  subst h6
  unfold validateAndNormalizeIntent
  have hdef : normDefaults q ⟨ty, some a, some e, some f, some p, de, qb, sh, ex, some q⟩ =
      ⟨ty, some a, some e, some f, some p, de, qb, sh, ex, some q⟩ := by
    simp [normDefaults, jsOr_nonfalsy _ _ h1, jsOr_some_empty]
  rw [hdef]
  have hdat : normDates today ⟨ty, some a, some e, some f, some p, de, qb, sh, ex, some q⟩ =
      ⟨ty, some a, some e, some f, some p, de, qb, sh, ex, some q⟩ := by
    rw [normDates_eq]
    simp only [if_neg h7]
  rw [hdat]
  have hqbo : normQboPath ⟨ty, some a, some e, some f, some p, de, qb, sh, ex, some q⟩ =
      ⟨ty, some a, some e, some f, some p, de, qb, sh, ex, some q⟩ := by
    rw [normQboPath_eq]
    rcases h8 with h | h
    · simp [h]
    · simp [h]
  rw [hqbo]
  have hpro : normPromoteCustom ⟨ty, some a, some e, some f, some p, de, qb, sh, ex, some q⟩ =
      ⟨ty, some a, some e, some f, some p, de, qb, sh, ex, some q⟩ := by
    rw [normPromoteCustom_eq]
    simp only [if_neg h9]
  rw [hpro]
  have hdst : normDestination ⟨ty, some a, some e, some f, some p, de, qb, sh, ex, some q⟩ =
      ⟨ty, some a, some e, some f, some p, de, qb, sh, ex, some q⟩ := by
    rw [normDestination_eq]
    simp only [if_neg h10]
  rw [hdst]
  have hnam : normSheetName etf q ⟨ty, some a, some e, some f, some p, de, qb, sh, ex, some q⟩ =
      ⟨ty, some a, some e, some f, some p, de, qb, sh, ex, some q⟩ := by
    rw [normSheetName_eq]
    simp only [if_neg h11]
  rw [hnam]
  rw [normExplanation_eq]
  simp only [h12]
  simp

/-! ## Claim C7 -/

/-- C7 counterexample: for an intent that carries only a `destination`, the
first normalization pass infers the `updateRange` sheets call after the
unknown-to-custom promotion check has already run, so a second pass
promotes `type` from `unknown` to `custom`: normalization is not
idempotent. -/
theorem C7_counterexample :
    validateAndNormalizeIntent (fun _ => none) ⟨2024, 3, 15⟩
      (validateAndNormalizeIntent (fun _ => none) ⟨2024, 3, 15⟩
        ⟨none, none, none, none, none, some "Sheet1!A1", none, none, none, none⟩ "paste it")
      "paste it" ≠
    validateAndNormalizeIntent (fun _ => none) ⟨2024, 3, 15⟩
      ⟨none, none, none, none, none, some "Sheet1!A1", none, none, none, none⟩ "paste it" := by
  decide

/-- C7 (amended): normalization is idempotent from the second application
onward — a third application of `validateAndNormalizeIntent` (same query,
same clock, same name-extraction oracle) returns its input unchanged, so
the only possible field drift on repeated application is the single
`unknown`-to-`custom` promotion of the type field that the second pass
performs on intents whose first pass inferred a destination write. -/
theorem C7_amended_second_pass_fixed (etf : String → Option String) (today : SDate)
    (q : String) (i : Intent) :
    validateAndNormalizeIntent etf today
      (validateAndNormalizeIntent etf today (validateAndNormalizeIntent etf today i q) q) q =
    validateAndNormalizeIntent etf today (validateAndNormalizeIntent etf today i q) q := by
  have key : ∀ x : Intent,
      validateAndNormalizeIntent etf today
        (vni etf today (vni etf today x q) q) q =
      vni etf today (vni etf today x q) q := by
    intro x
    apply norm_fixed
    · exact vni_itype_nonfalsy etf today _ q
    · exact vni_action_isSome etf today _ q
    · exact vni_entity_isSome etf today _ q
    · exact vni_filters_isSome etf today _ q
    · exact vni_parameters_isSome etf today _ q
    · exact vni_text etf today _ q
    · exact vni_dates_ok etf today _ q
    · exact vni_qbo_ok etf today _ q
    · rintro ⟨hor, hunk⟩
      have hq := vni_unknown_qbo etf today (vni etf today x q) q hunk
      have hsin := vni_unknown_sheets_in etf today (vni etf today x q) q hunk
      have hsheets : jsFalsy (vni etf today (vni etf today x q) q).sheetsApiCall = true := by
        rw [vni_sheetsApiCall]
        split_ifs with hc
        · exfalso
          have hds := vni_dest_sheets etf today x q (by
            rcases hfd : jsFalsy (vni etf today x q).destination with _ | _
            · rfl
            · exact absurd hfd (by simpa using hc.1))
          simp [hds] at hsin
        · exact hsin
      rcases hor with h | h
      · exact h hq
      · exact h hsheets
    · rintro ⟨hd, hs⟩
      have hds := vni_dest_sheets etf today (vni etf today x q) q (by
        rcases hfd : jsFalsy (vni etf today (vni etf today x q) q).destination with _ | _
        · rfl
        · exact absurd hfd hd)
      simp [hds] at hs
    · rintro ⟨ha, hn⟩
      have := vni_name_ok etf today (vni etf today x q) q ha
      simp [this] at hn
    · exact vni_expl_nonfalsy etf today _ q
  exact key i

/-! ## Report tree data model

QuickBooks report payloads are duck-typed JS objects; their rows carry an
optional `type` tag, an optional `Header` (with optional `ColData`), an
optional nested `Rows` (with optional `Row` array), an optional `ColData`
cell array and an optional `Summary` (with optional `ColData`).  A cell is
its optional `value` field (scalar values modelled as strings, `none` for a
missing `value`).  The nested `Option` layers mirror the JS truthiness
tests `row.Header && row.Header.ColData`, `row.Rows && row.Rows.Row` and
`row.Summary`. -/

/-- A report row: `type`, `Header.ColData`, `Rows.Row`, `ColData`,
`Summary.ColData` (in that constructor order). -/
inductive JRow : Type where
  | mk : Option String → Option (Option (List (Option String))) →
         Option (Option (List JRow)) → Option (List (Option String)) →
         Option (Option (List (Option String))) → JRow

/-- The row tag (JS field `type`). -/
def JRow.rtype : JRow → Option String
  | .mk t _ _ _ _ => t

/-- The section header cells (JS `row.Header`, inner layer `ColData`). -/
def JRow.header : JRow → Option (Option (List (Option String)))
  | .mk _ h _ _ _ => h

/-- The nested child rows (JS `row.Rows`, inner layer `Row`). -/
def JRow.rows : JRow → Option (Option (List JRow))
  | .mk _ _ r _ _ => r

/-- The data cells (JS `row.ColData`). -/
def JRow.colData : JRow → Option (List (Option String))
  | .mk _ _ _ c _ => c

/-- The summary cells (JS `row.Summary`, inner layer `ColData`). -/
def JRow.summary : JRow → Option (Option (List (Option String)))
  | .mk _ _ _ _ s => s

/-- One column descriptor of a report (`ColTitle`/`ColType`). -/
structure RCol where
  ColTitle : Option String
  ColType : Option String

/-- The `Columns` wrapper (`Columns.Column`). -/
structure RColumns where
  Column : Option (List RCol)

/-- The `Rows` wrapper (`Rows.Row`). -/
structure RRows where
  Row : Option (List JRow)

/-- The report `Header` metadata. -/
structure RHeader where
  ReportName : Option String
  Time : Option String
  StartPeriod : Option String
  EndPeriod : Option String
  ReportBasis : Option String

/-- One entry of a capitalized `Fault.Error` array. -/
structure RFaultErr where
  Message : Option String

/-- A capitalized `Fault` object (`Fault.Error[0].Message`). -/
structure RFault where
  Error : Option (List RFaultErr)

/-- One entry of a lowercase `fault.error` array. -/
structure RFaultErrL where
  message : Option String

/-- A lowercase `fault` object (`fault.error[0].message`). -/
structure RFaultL where
  error : Option (List RFaultErrL)

/-- A parsed report payload: the fields of the QuickBooks report JSON that
the source reads (`Header`, `Columns`, `Rows`, and the two fault spellings
checked by `getReport` and `getProfitAndLossReport`). -/
structure RData where
  Header : Option RHeader
  Columns : Option RColumns
  Rows : Option RRows
  Fault : Option RFault
  fault : Option RFaultL

/-! ## The Report Tree Flattener (Utils.js)

`Utils.js` defines `formatDataForSheet` twice (lines 111-121 and lines
790-946); in Apps Script the later function declaration wins, so the
effective flattener for report payloads is the report branch
(`data.Rows && data.Columns`) of the second definition, embedded below as
`formatDataForSheet`.  The first definition dispatches `'report'` payloads
to `formatReportData` (lines 129-223), which is embedded separately. -/

/-- Right padding with empty-string cells up to width `n` (the JS
`while (values.length < headers.length) values.push('')` loops). -/
def padTo (l : List (Option String)) (n : Nat) : List (Option String) :=
  l ++ List.replicate (n - l.length) (some "")

theorem padTo_len (l : List (Option String)) (n : Nat) : n ≤ (padTo l n).length := by
  simp [padTo]
  omega

/-- Report-name test selecting the reduced two-column layout
(Utils.js lines 135-138). -/
def isBasicReport (reportData : RData) : Bool :=
  match reportData.Header with
  | none => false
  | some h =>
      h.ReportName == some "Profit and Loss (Basic)" ||
      h.ReportName == some "Profit and Loss (Direct)" ||
      h.ReportName == some "P&L Skeleton (API Access Limited)"

/-- Exact-width row shaping of `formatReportData`: cell `k` is
`rowData[k].value || ''` when `k` is in range and `''` otherwise
(the `for (let i = 0; i < headers.length; i++)` loops). -/
def fitTo (n : Nat) (cells : List (Option String)) : List (Option String) :=
  (List.range n).map (fun k => some ((cells.getD k none).getD ""))

theorem fitTo_len (n : Nat) (cells : List (Option String)) : (fitTo n cells).length = n := by
  simp [fitTo]

/-- Emission of zero or one table rows for one report row by
`formatReportData` (the body of the `rows.forEach` at Utils.js lines
154-220). -/
def emitReportRow (isBasic : Bool) (hs : List (Option String)) (row : JRow) :
    List (List (Option String)) :=
  if row.rtype == some "Section" then
    let headerValue : Option String :=
      match row.header with
      | some (some (c :: _)) => c
      | _ => some "Section"
    if isBasic then [[headerValue, some ""]]
    else [headerValue :: List.replicate (hs.length - 1) (some "")]
  else if row.rtype == some "Data" then
    let rowData := row.colData.getD []
    if isBasic then
      match rowData with
      | c0 :: c1 :: _ => [[some (c0.getD ""), some (c1.getD "")]]
      | [c0] => [[some (c0.getD ""), some ""]]
      | [] => [[some "", some ""]]
    else [fitTo hs.length rowData]
  else if row.summary.isSome then
    let summaryData := (row.summary.getD none).getD []
    if isBasic then
      let summaryValue : Option String :=
        match summaryData with
        | c0 :: _ => c0
        | [] => some "Total"
      let amountValue : Option String :=
        match summaryData with
        | _ :: c1 :: _ => c1
        | _ => some ""
      [[summaryValue, amountValue]]
    else [fitTo hs.length summaryData]
  else []

/-- Header row of `formatReportData` (Utils.js lines 140-148): the basic
two-column layout, or one `ColTitle || ColType` cell per column
descriptor, or the two-column default. -/
def frdHeaders (rd : RData) : List (Option String) :=
  if isBasicReport rd then [some "Category", some "Amount"]
  else
    match rd.Columns with
    | some cols =>
        match cols.Column with
        | some colList => colList.map (fun c => jsOr c.ColTitle c.ColType)
        | none => [some "Category", some "Amount"]
    | none => [some "Category", some "Amount"]

/-- Embedding of `formatReportData` (Utils.js lines 129-223): header row
derived from the column metadata (or the basic/default two-column layout),
then one table row per recognized top-level report row.  Child rows nested
under sections are not visited by this function. -/
def formatReportData (reportData : Option RData) : List (List (Option String)) :=
  match reportData with
  | none => [[some "No data found"]]
  | some rd =>
    match rd.Rows with
    | none => [[some "No data found"]]
    | some rrows =>
      match rrows.Row with
      | none => [[some "No data found"]]
      | some rows =>
        frdHeaders rd ::
          (rows.map (emitReportRow (isBasicReport rd) (frdHeaders rd))).flatten

theorem frdHeaders_basic (rd : RData) (h : isBasicReport rd = true) :
    frdHeaders rd = [some "Category", some "Amount"] := by
  simp [frdHeaders, h]

/-- Depth-first row flattening of the second `formatDataForSheet`
definition (the `processRow` closure, Utils.js lines 842-903): a section
row emits its padded header cells and then all flattened children; data and
summary rows emit one padded row; anything else emits nothing.  Rows are
padded up to the header width but never truncated. -/
def processRow (hs : List (Option String)) : JRow → List (List (Option String))
  | .mk _ header rows colData summary =>
    match rows with
    | some (some children) =>
        let sectionRows :=
          match header with
          | some hc => [padTo ((hc.getD []).map (fun c => some (c.getD ""))) hs.length]
          | none => []
        sectionRows ++ (children.attach.map (fun c => processRow hs c.1)).flatten
    | _ =>
      match colData with
      | some cells => [padTo (cells.map (fun c => some (c.getD ""))) hs.length]
      | none =>
        match summary with
        | some sc => [padTo ((sc.getD []).map (fun c => some (c.getD ""))) hs.length]
        | none => []
decreasing_by
  have h2 := List.sizeOf_lt_of_mem c.2
  simp_all
  omega

/-- Embedding of the report branch (`data.Rows && data.Columns`) of the
effective `formatDataForSheet` definition (Utils.js lines 790-946).  The
`QueryResponse` and array branches operate on non-report payloads and are
outside this report-payload model; the final fallback's `JSON.stringify`
rendering is abstracted as an opaque placeholder cell, as no property below
depends on it.  `fdsHeaders` is the header row (Utils.js lines 832-839). -/
def fdsHeaders (data : RData) : List (Option String) :=
  match data.Columns with
  | some cols =>
      match cols.Column with
      | some colList => colList.map (fun c => jsOr (jsOr c.ColTitle c.ColType) (some "Column"))
      | none => [some "Account", some "Amount"]
  | none => [some "Account", some "Amount"]

/-- Flattened data rows of the report branch (the `data.Rows.Row` guard at
Utils.js lines 906-913). -/
def fdsRows (data : RData) : List (List (Option String)) :=
  match data.Rows with
  | some rrows =>
      match rrows.Row with
      | some (r :: rs) => ((r :: rs).map (processRow (fdsHeaders data))).flatten
      | _ => []
  | none => []

def formatDataForSheet (data : RData) : List (List (Option String)) :=
  if data.Rows.isSome && data.Columns.isSome then
    let rows2 :=
      if (fdsRows data).isEmpty then
        [(some "No data available for this period") ::
          List.replicate ((fdsHeaders data).length - 1) (some "")]
      else fdsRows data
    fdsHeaders data :: rows2
  else [[some "Data"], [some "serialized"]]

theorem emitReportRow_len (isBasic : Bool) (hs : List (Option String)) (r : JRow)
    (hb : isBasic = true → hs.length = 2) (hp : 0 < hs.length) :
    ∀ row ∈ emitReportRow isBasic hs r, row.length = hs.length := by
  intro row hrow
  unfold emitReportRow at hrow
  repeat' split at hrow
  all_goals simp_all [fitTo_len]
  all_goals (try omega)
  all_goals (rcases hL : r.colData.getD [] with _ | ⟨c0, _ | ⟨c1, rest⟩⟩ <;> simp_all)

theorem processRow_width (hs : List (Option String)) (r : JRow) :
    ∀ row ∈ processRow hs r, hs.length ≤ row.length := by
  match r with
  | .mk t header rows colData summary =>
    intro row hrow
    rw [processRow.eq_def] at hrow
    rcases rows with _ | ⟨_ | children⟩
    · rcases colData with _ | cells
      · rcases summary with _ | sc
        · simp at hrow
        · simp at hrow
          subst hrow
          exact padTo_len _ _
      · simp at hrow
        subst hrow
        exact padTo_len _ _
    · rcases colData with _ | cells
      · rcases summary with _ | sc
        · simp at hrow
        · simp at hrow
          subst hrow
          exact padTo_len _ _
      · simp at hrow
        subst hrow
        exact padTo_len _ _
    · simp only [List.mem_append, List.mem_flatten, List.mem_map] at hrow
      rcases hrow with h | ⟨l, ⟨⟨c, hc⟩, hcmem, rfl⟩, hl⟩
      · rcases header with _ | hc2
        · simp at h
        · simp at h
          subst h
          exact padTo_len _ _
      · exact processRow_width hs c row hl
termination_by sizeOf r
decreasing_by
  have h2 := List.sizeOf_lt_of_mem hc
  simp_all
  omega

/-! ## Claim C3 -/

/-- C3 counterexample: a report tree with a two-column header and a `Data`
row of three cells: the effective flattener `formatDataForSheet` emits the
three-cell row unchanged next to the two-cell header (padding happens,
truncation does not), so the emitted row widths are `[2, 3]`. -/
theorem C3_counterexample :
    (formatDataForSheet
      { Header := none,
        Columns := some ⟨some [⟨some "Account", some "Account"⟩, ⟨some "Amount", some "Amount"⟩]⟩,
        Rows := some ⟨some [JRow.mk (some "Data") none none
          (some [some "a", some "b", some "c"]) none]⟩,
        Fault := none, fault := none }).map List.length = [2, 3] := by
  simp [formatDataForSheet, fdsHeaders, fdsRows, processRow, padTo, jsOr, jsFalsy]

/-- C3 (amended): the exact-width invariant (padding and truncation) holds
for `formatReportData` — every emitted row has exactly as many cells as the
header row, whenever the header is non-empty.  For the effective
`formatDataForSheet` flattener only the padding half holds: every emitted
row has at least header width (shorter rows are right-padded with empty
strings), but rows longer than the header keep their extra cells and are
not truncated. -/
theorem C3_amended_row_widths :
    (∀ (rd : Option RData) (row : List (Option String)), row ∈ formatReportData rd →
        0 < ((formatReportData rd).headD []).length →
        row.length = ((formatReportData rd).headD []).length) ∧
    (∀ (d : RData) (row : List (Option String)), row ∈ formatDataForSheet d →
        ((formatDataForSheet d).headD []).length ≤ row.length) := by
  constructor
  · intro rd row hrow hp
    rcases rd with _ | rdd
    · simp [formatReportData] at hrow ⊢
      subst hrow
      rfl
    · rcases hR : rdd.Rows with _ | rrows
      · simp [formatReportData, hR] at hrow ⊢
        subst hrow
        rfl
      · rcases hRR : rrows.Row with _ | rows
        · simp [formatReportData, hR, hRR] at hrow ⊢
          subst hrow
          rfl
        · simp only [formatReportData, hR, hRR] at hrow hp ⊢
          simp only [List.headD_cons] at hp ⊢
          simp only [List.mem_cons, List.mem_flatten, List.mem_map] at hrow
          rcases hrow with rfl | ⟨l, ⟨rr, hrr, rfl⟩, hl⟩
          · rfl
          · apply emitReportRow_len _ _ _ _ hp _ hl
            intro hbas
            simp [frdHeaders_basic _ hbas]
  · intro d row hrow
    unfold formatDataForSheet at hrow ⊢
    split at hrow
    case isTrue hcond =>
      rw [if_pos hcond]
      simp only [List.headD_cons]
      rcases List.mem_cons.mp hrow with rfl | hmem
      · exact Nat.le_refl _
      · split at hmem
        · simp only [List.mem_singleton] at hmem
          subst hmem
          simp
          omega
        · unfold fdsRows at hmem
          rcases hR : d.Rows with _ | rrows
          · simp only [hR] at hmem
            simp at hmem
          · simp only [hR] at hmem
            rcases hRR : rrows.Row with _ | list
            · simp only [hRR] at hmem
              simp at hmem
            · simp only [hRR] at hmem
              rcases list with _ | ⟨r0, rs⟩
              · simp at hmem
              · rcases (by simpa using hmem :
                    row ∈ processRow (fdsHeaders d) r0 ∨
                      ∃ a ∈ rs, row ∈ processRow (fdsHeaders d) a) with h | ⟨a, _, h⟩
                · exact processRow_width _ r0 row h
                · exact processRow_width _ a row h
    case isFalse hcond =>
      rw [if_neg hcond]
      simp at hrow
      rcases hrow with rfl | rfl <;> simp

theorem C3_amended_row_widths_witness :
    ([some "x", some ""] : List (Option String)).length =
      ((formatReportData (some
        { Header := none,
          Columns := some ⟨some [⟨some "Account", some "Account"⟩, ⟨some "Amount", some "Amount"⟩]⟩,
          Rows := some ⟨some [JRow.mk (some "Data") none none (some [some "x"]) none]⟩,
          Fault := none, fault := none })).headD []).length :=
  C3_amended_row_widths.1 _ [some "x", some ""] (by decide) (by decide)

/-! ## Entity query data model (Utils.js `formatQueryData`)

Query results are heterogeneous JS objects.  They are modelled by a small
JSON-like value type: scalars (strings, numbers, booleans) are collapsed
into `str`, with JS string truthiness (an empty string is falsy); objects
keep their field order, as JS `for…in` iteration does. -/

/-- A dynamic JS value as seen by the Entity Query Formatter. -/
inductive JVal : Type where
  | str : String → JVal
  | obj : List (String × JVal) → JVal
  | arr : List JVal → JVal
  | jnull : JVal

/-- Truthiness of a `JVal` (objects and arrays are truthy, `null` is falsy,
a scalar is falsy iff it is the empty string in this model). -/
def jvTruthy : JVal → Bool
  | .str v => v ≠ ""
  | .obj _ => true
  | .arr _ => true
  | .jnull => false

/-- Property lookup on an object field list (first match, as in JS). -/
def objGet (fields : List (String × JVal)) (k : String) : Option JVal :=
  (fields.find? (fun kv => kv.1 = k)).map (fun kv => kv.2)

/-- Header extraction of `formatQueryData` (the `extractHeaders` closure,
Utils.js lines 252-260): a recursive walk over the first record's fields
that expands nested non-array objects into dotted-path keys, pushes a
header for every scalar or null field, and skips array-valued fields
entirely (neither branch of the JS conditional fires for an array). -/
def extractHeadersFields (pre : String) : List (String × JVal) → List String
  | [] => []
  | (k, JVal.obj f2) :: rest =>
      extractHeadersFields (pre ++ k ++ ".") f2 ++ extractHeadersFields pre rest
  | (_, JVal.arr _) :: rest => extractHeadersFields pre rest
  | (k, _) :: rest => (pre ++ k) :: extractHeadersFields pre rest

/-- Splitting of a character list at dots (accumulator holds the current
segment reversed). -/
def splitCharsDot : List Char → List Char → List String
  | [], acc => [String.mk acc.reverse]
  | c :: rest, acc =>
      if c = '.' then String.mk acc.reverse :: splitCharsDot rest []
      else splitCharsDot rest (c :: acc)

/-- Splitting of a header at dots, modelling the JS `header.split('.')`. -/
def splitOnDot (s : String) : List String := splitCharsDot s.data []

/-- Dotted-path resolution of one header against one record (Utils.js lines
266-279): descend while the current value is truthy and has the next path
part; otherwise render the empty string. -/
def lookupPath : JVal → List String → JVal
  | v, [] => v
  | v, p :: rest =>
      if jvTruthy v then
        match v with
        | .obj fields =>
            match objGet fields p with
            | some v2 => lookupPath v2 rest
            | none => .str ""
        | _ => .str ""
      else .str ""

/-- A query payload for the Entity Query Formatter: the `QueryResponse`
object is a field list whose entity key holds an array of records. -/
structure QData where
  QueryResponse : Option (List (String × JVal))

/-- Entity-array detection of `formatQueryData` (Utils.js lines 237-239):
the first key whose value is an array and which is not `maxResults`. -/
def findEntityArray (qr : List (String × JVal)) : Option (List JVal) :=
  match qr.find? (fun kv => (kv.2 matches JVal.arr _) && kv.1 ≠ "maxResults") with
  | some (_, JVal.arr entities) => some entities
  | _ => none

/-- Embedding of `formatQueryData` (Utils.js lines 231-284): headers from
the first record via `extractHeadersFields`, then one row per record with
each cell resolved by `lookupPath` over the dot-split header. -/
def formatQueryData (queryData : QData) : List (List JVal) :=
  match queryData.QueryResponse with
  | none => [[.str "No data found"]]
  | some qr =>
    match findEntityArray qr with
    | none => [[.str "No data found"]]
    | some [] => [[.str "No data found"]]
    | some (e0 :: es) =>
        let headers := extractHeadersFields "" (match e0 with | .obj f => f | _ => [])
        let rows := (e0 :: es).map (fun e => headers.map (fun h => lookupPath e (splitOnDot h)))
        (headers.map JVal.str) :: rows

/-! ## Claim C9 -/

/-- C9 counterexample: a customer record with an array-valued `Tags` field.
`extractHeaders` pushes no header for an array (neither branch of its
conditional fires), so the array field is omitted from the header row
entirely and no serialized form of it appears anywhere in the output — the
flattened table is exactly `[[Name],[A]]`. -/
theorem C9_counterexample :
    formatQueryData ⟨some [("Customer", JVal.arr
        [JVal.obj [("Name", JVal.str "A"), ("Tags", JVal.arr [JVal.str "x"])]])]⟩ =
      [[JVal.str "Name"], [JVal.str "A"]] ∧
    extractHeadersFields "" [("Name", JVal.str "A"), ("Tags", JVal.arr [JVal.str "x"])] =
      ["Name"] := by
  constructor <;>
    simp [formatQueryData, findEntityArray, extractHeadersFields, splitOnDot, splitCharsDot,
      lookupPath, objGet, jvTruthy]

/-- C9 (amended): for every non-empty entity query result, the Entity Query
Formatter builds the header row by recursively walking the first record's
fields, expanding nested non-array objects into dotted-path keys and using
that fixed header set for every subsequent record, so every output row has
exactly header width; a record missing one of those paths renders an empty
string in that cell rather than an error; and array-valued fields are not
expanded — they are omitted from the header set entirely and therefore do
not render at all (not even in serialized form). -/
theorem C9_amended_query_formatter :
    (∀ (q : QData) (row : List JVal), row ∈ formatQueryData q →
        row.length = ((formatQueryData q).headD []).length) ∧
    (∀ (pre k : String) (fields f2 : List (String × JVal)) (h : String),
        (k, JVal.obj f2) ∈ fields →
        h ∈ extractHeadersFields (pre ++ k ++ ".") f2 →
        h ∈ extractHeadersFields pre fields) ∧
    (∀ (pre k : String) (fields : List (String × JVal)) (s : String),
        (k, JVal.str s) ∈ fields → (pre ++ k) ∈ extractHeadersFields pre fields) ∧
    (∀ (fields : List (String × JVal)) (p : String) (rest : List String),
        objGet fields p = none → lookupPath (JVal.obj fields) (p :: rest) = JVal.str "") ∧
    (∀ (pre k : String) (xs : List JVal) (rest : List (String × JVal)),
        extractHeadersFields pre ((k, JVal.arr xs) :: rest) =
          extractHeadersFields pre rest) := by
  refine ⟨?_, ?_, ?_, ?_, ?_⟩
  · intro q row hrow
    unfold formatQueryData at hrow ⊢
    rcases hQ : q.QueryResponse with _ | qr
    · rw [hQ] at hrow
      simp at hrow
      subst hrow
      rfl
    · rw [hQ] at hrow
      rcases hF : findEntityArray qr with _ | ⟨_ | ⟨e0, es⟩⟩
      · simp only [hF] at hrow
        simp at hrow
        subst hrow
        simp [hQ, hF]
      · simp only [hF] at hrow
        simp at hrow
        subst hrow
        simp [hQ, hF]
      · simp only [hF] at hrow
        simp only [hQ, hF, List.headD_cons]
        simp only [List.mem_cons, List.mem_map] at hrow
        rcases hrow with rfl | ⟨e, _, rfl⟩ <;> simp
  · intro pre k fields
    induction fields with
    | nil => intro f2 h hmem; simp at hmem
    | cons kv rest ih =>
        intro f2 h hmem hin
        rcases List.mem_cons.mp hmem with rfl | hmem2
        · unfold extractHeadersFields
          exact List.mem_append.mpr (Or.inl hin)
        · rcases kv with ⟨k1, v1⟩
          cases v1 <;> simp only [extractHeadersFields] <;>
            first
              | exact List.mem_append.mpr (Or.inr (ih _ _ hmem2 hin))
              | exact List.mem_cons.mpr (Or.inr (ih _ _ hmem2 hin))
              | exact ih _ _ hmem2 hin
  · intro pre k fields s hmem
    induction fields with
    | nil => simp at hmem
    | cons kv rest ih =>
        rcases List.mem_cons.mp hmem with rfl | hmem2
        · simp [extractHeadersFields]
        · rcases kv with ⟨k1, v1⟩
          cases v1 <;> simp only [extractHeadersFields] <;>
            first
              | exact List.mem_append.mpr (Or.inr (ih hmem2))
              | exact List.mem_cons.mpr (Or.inr (ih hmem2))
              | exact ih hmem2
  · intro fields p rest hnone
    simp [lookupPath, jvTruthy, hnone]
  · intro pre k xs rest
    simp only [extractHeadersFields]

theorem C9_amended_query_formatter_witness :
    ("BillAddr.City" ∈ extractHeadersFields ""
        [("Name", JVal.str "A"), ("BillAddr", JVal.obj [("City", JVal.str "NY")])]) ∧
    lookupPath (JVal.obj [("Name", JVal.str "B")]) ("BillAddr" :: ["City"]) = JVal.str "" := by
  constructor
  · exact C9_amended_query_formatter.2.1 "" "BillAddr"
      [("Name", JVal.str "A"), ("BillAddr", JVal.obj [("City", JVal.str "NY")])]
      [("City", JVal.str "NY")] "BillAddr.City"
      (List.mem_cons.mpr (Or.inr (List.mem_singleton.mpr rfl)))
      (by simp [extractHeadersFields])
  · exact C9_amended_query_formatter.2.2.2.1 [("Name", JVal.str "B")] "BillAddr" ["City"] rfl

/-! ## QuickBooks API layer (the unnamed QuickBooks integration file)

The external world is an oracle environment: `fetchFn` gives the outcome of
the n-th `UrlFetchApp.fetch` call (a thrown message or a response with a
status code and a body-parse outcome), `refreshFn` the outcome of the n-th
OAuth `service.refresh()` call, and `queryFn` the outcome of the n-th
`queryQuickBooks` entity query (abstracting that call's own HTTP layer).
`hasAccess`/`canRefresh` are the OAuth service flags and `companyIdSet`
models whether the `QBO_COMPANY_ID` script property is present.  URL and
query-string construction only affect which request is issued, which the
oracle already absorbs. -/

/-- One transaction record as read by the basic P&L fallback (`TotalAmt`
only); amounts are modelled as integers. -/
structure TxnRec where
  TotalAmt : Option Int

/-- One account record as read by the alternative P&L strategy. -/
structure AccountRec where
  Name : String
  CurrentBalance : Option String

/-- The `QueryResponse` object of an entity query, with one optional array
per entity kind the fallback strategies read. -/
structure QResp where
  Account : Option (List AccountRec)
  Invoice : Option (List TxnRec)
  SalesReceipt : Option (List TxnRec)
  Deposit : Option (List TxnRec)
  Bill : Option (List TxnRec)
  Purchase : Option (List TxnRec)
  Expense : Option (List TxnRec)

/-- A parsed entity-query payload. -/
structure QueryPayload where
  QueryResponse : Option QResp

/-- An HTTP response: status code plus the `JSON.parse` outcome of its body
(`Except.error` carries the parse exception's message). -/
structure Resp where
  code : Nat
  parsed : Except String RData

/-- The oracle environment threaded through every API-layer function. -/
structure Env where
  hasAccess : Bool
  canRefresh : Bool
  companyIdSet : Bool
  fetchFn : Nat → Except String Resp
  fetchIdx : Nat
  refreshFn : Nat → Bool
  refreshIdx : Nat
  queryFn : Nat → Except String QueryPayload
  queryIdx : Nat
  today : SDate

/-- Environment after one more `UrlFetchApp.fetch` call has been issued. -/
def bumpFetch (env : Env) : Env := { env with fetchIdx := env.fetchIdx + 1 }

/-- Environment after one more `service.refresh()` call has been issued. -/
def bumpRefresh (env : Env) : Env := { env with refreshIdx := env.refreshIdx + 1 }

/-- Post-authentication part of `makeApiCall` (company-id check, the fetch,
and the 401 refresh-and-retry-once handling plus the network re-wrapping of
the surrounding catch). -/
def makeApiCallAfterAuth (env : Env) : Except String Resp × Env :=
  if env.companyIdSet = false then
    (.error "Company ID not set. Please configure in settings.", env)
  else
    match env.fetchFn env.fetchIdx, bumpFetch env with
    | .error msg, env1 =>
        (.error (if strContains msg "network" then
          "Network connectivity issue when connecting to QuickBooks. Please check your internet connection."
        else msg), env1)
    | .ok resp, env1 =>
        if resp.code = 401 then
          if env1.canRefresh then
            if env1.refreshFn env1.refreshIdx then
              match (bumpRefresh env1).fetchFn (bumpRefresh env1).fetchIdx,
                  bumpFetch (bumpRefresh env1) with
              | .ok resp2, env3 => (.ok resp2, env3)
              | .error msg2, env3 =>
                  (.error (if strContains msg2 "network" then
                    "Network connectivity issue when connecting to QuickBooks. Please check your internet connection."
                  else msg2), env3)
            else (.error "Authentication failed with QuickBooks API. Please reconnect.",
              bumpRefresh env1)
          else (.error "Authentication failed with QuickBooks API. Please reconnect.", env1)
        else (.ok resp, env1)

/-- Embedding of `makeApiCall` (QuickBooks file lines 97-212): OAuth
preflight (with at most one pre-flight refresh), then the request, with at
most one refresh-and-retry on a 401 response; a second failure response is
returned as-is. -/
def makeApiCall (env : Env) : Except String Resp × Env :=
  if env.hasAccess then makeApiCallAfterAuth env
  else if env.canRefresh then
    if env.refreshFn env.refreshIdx then makeApiCallAfterAuth (bumpRefresh env)
    else (.error "QuickBooks access token expired and refresh failed. Please reconnect.",
      bumpRefresh env)
  else (.error "No access to QuickBooks API. Please authenticate in settings.", env)

/-- Success of the `makeApiCall` preflight: an access token is held or one
refresh succeeds, and the company id is configured. -/
def preflightOk (env : Env) : Bool :=
  (env.hasAccess || (env.canRefresh && env.refreshFn env.refreshIdx)) && env.companyIdSet

/-! ## Claim C4 -/

theorem afterAuth_le (env : Env) :
    (makeApiCallAfterAuth env).2.fetchIdx ≤ env.fetchIdx + 2 := by
  unfold makeApiCallAfterAuth bumpFetch bumpRefresh
  repeat' split
  all_goals simp_all

theorem afterAuth_fields (env : Env) :
    (makeApiCallAfterAuth env).2.fetchFn = env.fetchFn ∧
    (makeApiCallAfterAuth env).2.companyIdSet = env.companyIdSet := by
  unfold makeApiCallAfterAuth bumpFetch bumpRefresh
  repeat' split
  all_goals simp_all

theorem afterAuth_noCompany (env : Env) (h : env.companyIdSet = false) :
    (makeApiCallAfterAuth env).2.fetchIdx = env.fetchIdx := by
  unfold makeApiCallAfterAuth
  rw [if_pos h]

theorem afterAuth_no401 (env : Env) (h : env.companyIdSet = true)
    (h2 : ∀ r, env.fetchFn env.fetchIdx = .ok r → r.code ≠ 401) :
    (makeApiCallAfterAuth env).2.fetchIdx = env.fetchIdx + 1 := by
  unfold makeApiCallAfterAuth bumpFetch bumpRefresh
  rw [if_neg (by simp [h])]
  rcases hf : env.fetchFn env.fetchIdx with e | r
  · simp [bumpFetch]
  · have := h2 r hf
    simp [bumpFetch, this]

theorem afterAuth_two (env : Env)
    (h : (makeApiCallAfterAuth env).2.fetchIdx = env.fetchIdx + 2) :
    ∃ r, env.fetchFn env.fetchIdx = .ok r ∧ r.code = 401 := by
  by_cases hc : env.companyIdSet = false
  · rw [afterAuth_noCompany env hc] at h
    omega
  · rcases hf : env.fetchFn env.fetchIdx with e | r
    · unfold makeApiCallAfterAuth bumpFetch at h
      rw [if_neg hc, hf] at h
      simp at h
    · by_cases h401 : r.code = 401
      · exact ⟨r, rfl, h401⟩
      · rw [afterAuth_no401 env (by simpa using hc) (fun r2 hr2 => by
          rw [hf] at hr2
          cases hr2
          exact h401)] at h
        omega

/-- C4: for every request wrapped by the token refresh-and-retry logic of
`makeApiCall`, the underlying HTTP request runs at most twice in total;
when the OAuth/company-id preflight fails it runs zero times; when the
preflight passes and the first response is not a 401 it runs exactly once;
and a second execution happens only when the first response was a 401
(after one refresh), whose retry result is returned without any further
retry. -/
theorem C4_fetch_at_most_twice (env : Env) :
    ((makeApiCall env).2.fetchIdx - env.fetchIdx ≤ 2) ∧
    (preflightOk env = false → (makeApiCall env).2.fetchIdx = env.fetchIdx) ∧
    (preflightOk env = true →
      (∀ r, env.fetchFn env.fetchIdx = .ok r → r.code ≠ 401) →
      (makeApiCall env).2.fetchIdx = env.fetchIdx + 1) ∧
    ((makeApiCall env).2.fetchIdx = env.fetchIdx + 2 →
      ∃ r, env.fetchFn env.fetchIdx = .ok r ∧ r.code = 401) := by
  unfold makeApiCall preflightOk
  by_cases ha : env.hasAccess
  · rw [if_pos ha]
    refine ⟨?_, ?_, ?_, ?_⟩
    · have := afterAuth_le env
      omega
    · intro hp
      simp [ha] at hp
      exact afterAuth_noCompany env hp
    · intro hp h2
      simp [ha] at hp
      exact afterAuth_no401 env hp h2
    · exact afterAuth_two env
  · rw [if_neg ha]
    by_cases hcr : env.canRefresh
    · rw [if_pos hcr]
      by_cases hrf : env.refreshFn env.refreshIdx
      · rw [if_pos hrf]
        refine ⟨?_, ?_, ?_, ?_⟩
        · have := afterAuth_le (bumpRefresh env)
          have hb : (bumpRefresh env).fetchIdx = env.fetchIdx := rfl
          rw [hb] at this
          omega
        · intro hp
          simp [ha, hcr, hrf] at hp
          exact afterAuth_noCompany _ (by simpa [bumpRefresh] using hp)
        · intro hp h2
          simp [ha, hcr, hrf] at hp
          exact afterAuth_no401 _ (by simpa [bumpRefresh] using hp)
            (by simpa [bumpRefresh] using h2)
        · exact afterAuth_two _
      · rw [if_neg hrf]
        refine ⟨by simp [bumpRefresh], by simp [bumpRefresh], ?_, by
          intro hx
          simp [bumpRefresh] at hx⟩
        intro hp
        simp [ha, hcr] at hp
        simp [hp] at hrf
    · rw [if_neg hcr]
      refine ⟨by simp, by simp, ?_, by simp⟩
      intro hp
      simp [ha, hcr] at hp

theorem C4_fetch_at_most_twice_witness :
    (makeApiCall ⟨true, false, true, fun _ => Except.ok ⟨200, Except.error "x"⟩, 0,
        fun _ => false, 0, fun _ => Except.error "x", 0, ⟨2024, 3, 15⟩⟩).2.fetchIdx = 0 + 1 :=
  (C4_fetch_at_most_twice _).2.2.1 rfl (by
    intro r hr
    cases hr
    decide)

/-! ## The `getReport` retry loop and `getReport` itself -/

/-- Embedding of the retry loop of `getReport` (QuickBooks file lines
943-963): the `while (retries < maxRetries)` loop with `maxRetries = 3`
unrolled; each failed attempt is followed by an exponential backoff sleep
of `1000 * 2^retries` milliseconds except the last, whose error is
rethrown.  The result carries the outcome, the environment, the number of
`makeApiCall` attempts and the list of sleep durations. -/
def getReportRetryLoop (env : Env) : Except String Resp × Env × Nat × List Nat :=
  match makeApiCall env with
  | (.ok r, e1) => (.ok r, e1, 1, [])
  | (.error _, e1) =>
    match makeApiCall e1 with
    | (.ok r, e2) => (.ok r, e2, 2, [2000])
    | (.error _, e2) =>
      match makeApiCall e2 with
      | (.ok r, e3) => (.ok r, e3, 3, [2000, 4000])
      | (.error err, e3) => (.error err, e3, 3, [2000, 4000])

/-! ## Claim C8 -/

/-- C8 counterexample: with no OAuth access and no refresh capability,
`makeApiCall` throws the non-transient `AuthRequired` error — and the
`getReport` retry loop still retries it for the full 3 attempts with the
2000ms/4000ms backoff sleeps, contradicting the claim that a failed attempt
is retried only on transient failure. -/
theorem C8_counterexample :
    (getReportRetryLoop ⟨false, false, true, fun _ => Except.error "unused", 0,
        fun _ => false, 0, fun _ => Except.error "unused", 0, ⟨2024, 3, 15⟩⟩).2.2.1 = 3 ∧
    (getReportRetryLoop ⟨false, false, true, fun _ => Except.error "unused", 0,
        fun _ => false, 0, fun _ => Except.error "unused", 0, ⟨2024, 3, 15⟩⟩).2.2.2 =
      [2000, 4000] ∧
    (getReportRetryLoop ⟨false, false, true, fun _ => Except.error "unused", 0,
        fun _ => false, 0, fun _ => Except.error "unused", 0, ⟨2024, 3, 15⟩⟩).1 =
      Except.error "No access to QuickBooks API. Please authenticate in settings." :=
  ⟨rfl, rfl, rfl⟩

/-- C8 (amended): the direct report strategy attempts `makeApiCall` at most
3 times with doubling backoff sleeps (2000ms then 4000ms — `1000 * 2^n`);
a further attempt is made exactly when the previous attempt threw, whatever
the thrown error was (authentication and configuration errors included,
not only transient ones); and a failure reported as an HTTP response
(permission or structural, any status code) never throws at this layer, so
it is never retried. -/
theorem C8_amended_retry_loop (env : Env) :
    ((getReportRetryLoop env).2.2.1 ≤ 3) ∧
    ((getReportRetryLoop env).2.2.2 =
      List.take ((getReportRetryLoop env).2.2.1 - 1) [2000, 4000]) ∧
    (2 ≤ (getReportRetryLoop env).2.2.1 → ∃ e, (makeApiCall env).1 = Except.error e) ∧
    (∀ r e1, makeApiCall env = (Except.ok r, e1) →
      getReportRetryLoop env = (Except.ok r, e1, 1, [])) := by
  unfold getReportRetryLoop
  refine ⟨?_, ?_, ?_, ?_⟩
  · repeat' split
    all_goals simp
  · repeat' split
    all_goals simp
  · repeat' split
    all_goals simp_all
  · intro r e1 hm
    rw [hm]

theorem C8_amended_retry_loop_witness :
    ∃ e, (makeApiCall ⟨false, false, true, fun _ => Except.error "unused", 0,
        fun _ => false, 0, fun _ => Except.error "unused", 0, ⟨2024, 3, 15⟩⟩).1 =
      Except.error e :=
  (C8_amended_retry_loop _).2.2.1 (by decide)

/-- Ten-character `yyyy-MM-dd` shape test, used by the future-date check
(an invalid date string gives `NaN` in the JS comparison, which is never
greater than now). -/
def isValidIsoDate (s : String) : Bool :=
  match s.data with
  | [a, b, c, d, e, f, g, h, i, j] =>
      a.isDigit && b.isDigit && c.isDigit && d.isDigit && e = '-' &&
      f.isDigit && g.isDigit && h = '-' && i.isDigit && j.isDigit
  | _ => false

/-- Model of `new Date(s) > new Date()` for a `yyyy-MM-dd` string: the
string is well-formed and denotes a strictly later calendar day than today
(lexicographic order on equal-length ISO dates is chronological; a
same-day midnight is not greater than now). -/
def dateStrInFuture (s : String) (today : SDate) : Bool :=
  isValidIsoDate s && decide (fmtDate today.year today.month today.day < s)

/-- Report request parameters, as read and defaulted by `getReport` and
assembled by `getProfitAndLossReport` (the `minorversion` parameter only
affects the request URL and is absorbed by the fetch oracle). -/
structure RParams where
  start_date : Option String
  end_date : Option String
  accounting_method : Option String
  columns : Option String

/-- Parameter defaulting of `getReport` (QuickBooks file lines 921-941):
missing start date becomes January 1 of the current year, missing end date
becomes today, missing accounting method becomes `Accrual`, and a missing
columns choice becomes `monthly` for profit-and-loss reports. -/
def getReportDefaults (reportType : String) (p : RParams) (today : SDate) : RParams :=
  let p1 := if jsFalsy p.start_date then
      { p with start_date := some (fmtDate today.year 1 1) } else p
  let p2 := if jsFalsy p1.end_date then
      { p1 with end_date := some (fmtDate today.year today.month today.day) } else p1
  let p3 := if jsFalsy p2.accounting_method then
      { p2 with accounting_method := some "Accrual" } else p2
  if reportType = "ProfitAndLoss" ∧ jsFalsy p3.columns then
    { p3 with columns := some "monthly" } else p3

/-- Month abbreviations of the monthly empty-report columns. -/
def monthNames : List String :=
  ["Jan", "Feb", "Mar", "Apr", "May", "Jun", "Jul", "Aug", "Sep", "Oct", "Nov", "Dec"]

/-- The empty report structure `getReport` fabricates for a 400 response on
a future date range (QuickBooks file lines 1014-1070). -/
def futureEmptyReport (reportType : String) (p : RParams) (today : SDate) : RData :=
  let year := (p.start_date.getD "").take 4
  { Header := some
      { ReportName := some reportType,
        Time := some (fmtDate today.year today.month today.day),
        StartPeriod := p.start_date,
        EndPeriod := p.end_date,
        ReportBasis := jsOr p.accounting_method (some "Accrual") },
    Columns := some ⟨some (
      if p.columns = some "monthly" then
        ⟨some "Account", some "Account"⟩ ::
          ((monthNames.map (fun mn => (⟨some (mn ++ " " ++ year), some "Money"⟩ : RCol))) ++
            [⟨some "Total", some "Money"⟩])
      else [⟨some "Account", some "Account"⟩, ⟨some "Amount", some "Amount"⟩])⟩,
    Rows := some ⟨some [JRow.mk (some "Section") (some (some [some "No Data Available"]))
      (some (some [
        JRow.mk (some "Data") none none
          (some [some ("No data is available for " ++ reportType ++ " in " ++ year), some ""])
          none,
        JRow.mk (some "Data") none none
          (some [some "This report structure has been created to match your request", some ""])
          none])) none none]⟩,
    Fault := none, fault := none }

/-- The `try` body of `getReport` (QuickBooks file lines 908-1092):
authentication check, parameter defaulting, the bounded retry loop, then
response handling (200 with body parsing and lowercase-fault detection,
400 on a future range fabricating an empty structure, and a generic
status-code error otherwise — the fault-specific rethrow in the error
branch is swallowed by its own `catch (e)`, so only the generic message
escapes). -/
def getReportBody (env : Env) (reportType : String) (p0 : RParams) :
    Except String RData × Env :=
  if env.hasAccess = false then
    (.error "Not authenticated with QuickBooks. Please reconnect.", env)
  else
    let p := getReportDefaults reportType p0 env.today
    match getReportRetryLoop env with
    | (.error e, env1, _, _) => (.error e, env1)
    | (.ok resp, env1, _, _) =>
        if resp.code = 200 then
          match resp.parsed with
          | .error pe => (.error ("Invalid response format from QuickBooks: " ++ pe), env1)
          | .ok d =>
              match d.fault with
              | some fl =>
                  (.error ("QuickBooks API error: " ++
                    (match fl.error with
                     | some (e0 :: _) => jsStr e0.message
                     | _ => "Unknown API error")), env1)
              | none => (.ok d, env1)
        else if resp.code = 400 ∧
            ((¬jsFalsy p.start_date ∧ dateStrInFuture (p.start_date.getD "") env.today) ∨
             (¬jsFalsy p.end_date ∧ dateStrInFuture (p.end_date.getD "") env.today)) then
          (.ok (futureEmptyReport reportType p env.today), env1)
        else
          (.error ("QuickBooks API call failed with status: " ++ toString resp.code), env1)

/-- The `SystemFault` object `getReport` returns instead of throwing. -/
structure SysFault where
  rtype : String
  Error : String
  message : String
  resolution : String

/-- Result of `getReport`: report data, or the `SystemFault` envelope. -/
inductive ReportOrFault : Type where
  | data : RData → ReportOrFault
  | fault : SysFault → ReportOrFault

/-- Embedding of `getReport` (QuickBooks file lines 908-1112): the body
wrapped in the catch that converts every thrown error into a `SystemFault`
object (field `rtype` embeds the JS field `type`; `Error` carries the
thrown message, abstracting `error.toString()`). -/
def getReport (env : Env) (reportType : String) (p0 : RParams) : ReportOrFault × Env :=
  match getReportBody env reportType p0 with
  | (.ok d, env1) => (.data d, env1)
  | (.error e, env1) =>
      (.fault { rtype := "SystemFault", Error := e,
                message := "Failed to retrieve " ++ reportType ++
                  " report from QuickBooks. This may be due to API permissions, authentication issues, or QuickBooks service availability.",
                resolution :=
                  "Please try reconnecting to QuickBooks, check your permissions, or try again later." },
        env1)

/-! ## Claim C10 -/

/-- C10: `getReport` never propagates an exception: every invocation
returns either parsed report data or an object whose `type` field is
`SystemFault`, carrying the thrown error, a fixed description naming the
report type, and a non-empty resolution hint — callers must inspect the
returned object's type field to detect failure. -/
theorem C10_getReport_never_throws (env : Env) (reportType : String) (p0 : RParams) :
    (∃ d env1, getReport env reportType p0 = (ReportOrFault.data d, env1)) ∨
    (∃ e env1, getReport env reportType p0 = (ReportOrFault.fault
      { rtype := "SystemFault", Error := e,
        message := "Failed to retrieve " ++ reportType ++
          " report from QuickBooks. This may be due to API permissions, authentication issues, or QuickBooks service availability.",
        resolution :=
          "Please try reconnecting to QuickBooks, check your permissions, or try again later." },
      env1)) := by
  unfold getReport
  rcases hb : getReportBody env reportType p0 with ⟨res, env1⟩
  rcases res with e | d
  · right
    exact ⟨e, env1, rfl⟩
  · left
    exact ⟨d, env1, rfl⟩

/-! ## The Report Fallback Chain (`getProfitAndLossReport` and strategies)

`queryQuickBooks` (a `callQuickBooksApi` query call) is modelled by the
`queryFn` oracle: outcome `Except.error` is a thrown error carrying its
message, `Except.ok` the parsed payload.  `Number.toFixed(2)` rendering of
summed amounts is abstracted by `toFixed2`, and audit logging is a no-op,
so the outer catch of `getBasicTransactionPLReport` (the minimal-skeleton
branch at lines 595-634) and the all-methods-failed throw of
`getProfitAndLossReport` (lines 1227-1232) are unreachable in this model:
every step of the basic strategy is individually caught. -/

/-- Environment after one more `queryQuickBooks` call has been issued. -/
def bumpQuery (env : Env) : Env := { env with queryIdx := env.queryIdx + 1 }

/-- Rendering of a summed amount, abstracting `total.toFixed(2)`. -/
def toFixed2 (n : Int) : String := toString n

/-- Sum of the truthy `TotalAmt` fields of a transaction list (the JS
`forEach` with `if (txn.TotalAmt) total += parseFloat(txn.TotalAmt)`;
a zero amount is falsy and skipped). -/
def sumTotalAmt (l : List TxnRec) : Int :=
  l.foldl (fun acc t =>
    match t.TotalAmt with
    | some n => if n ≠ 0 then acc + n else acc
    | none => acc) 0

/-- A two-cell `Data` report row. -/
def dataRow (label v : String) : JRow :=
  JRow.mk (some "Data") none none (some [some label, some v]) none

/-- A section header report row. -/
def sectionRow (title : String) : JRow :=
  JRow.mk (some "Section") (some (some [some title])) none none none

/-- One transaction-query attempt of the basic P&L fallback (each of the
six inner `try`/`catch` blocks at lines 320-419 and 455-554): a thrown
query is swallowed; a payload whose `QueryResponse` carries the selected
entity array yields the summed total and its data row. -/
def tryTxn (env : Env) (sel : QResp → Option (List TxnRec)) (label : String) :
    Env × Option (Int × JRow) :=
  match env.queryFn env.queryIdx with
  | .error _ => (bumpQuery env, none)
  | .ok payload =>
      match payload.QueryResponse with
      | some qr =>
          match sel qr with
          | some txns =>
              (bumpQuery env, some (sumTotalAmt txns,
                dataRow label (toFixed2 (sumTotalAmt txns))))
          | none => (bumpQuery env, none)
      | none => (bumpQuery env, none)

/-- The income cascade of the basic fallback: invoices, then sales
receipts, then deposits, each attempted only while no earlier attempt
succeeded. -/
def basicIncome (env : Env) : Env × Option (Int × JRow) :=
  match tryTxn env (fun q => q.Invoice) "Invoice Revenue" with
  | (env1, some r) => (env1, some r)
  | (env1, none) =>
      match tryTxn env1 (fun q => q.SalesReceipt) "Sales Revenue" with
      | (env2, some r) => (env2, some r)
      | (env2, none) => tryTxn env2 (fun q => q.Deposit) "Deposits"

/-- The expense cascade of the basic fallback: bills, then purchases, then
expense transactions. -/
def basicExpense (env : Env) : Env × Option (Int × JRow) :=
  match tryTxn env (fun q => q.Bill) "Bills" with
  | (env1, some r) => (env1, some r)
  | (env1, none) =>
      match tryTxn env1 (fun q => q.Purchase) "Purchases" with
      | (env2, some r) => (env2, some r)
      | (env2, none) => tryTxn env2 (fun q => q.Expense) "Expenses"

/-- Embedding of `getBasicTransactionPLReport` (QuickBooks file lines
277-635): the transaction-aggregation strategy.  It never throws: every
query attempt is individually caught, and each section degrades to a
placeholder row when all of its attempts fail. -/
def getBasicTransactionPLReport (env : Env) (params : RParams) : RData × Env :=
  match basicIncome env with
  | (envI, incomeRes) =>
      match basicExpense envI with
      | (envE, expenseRes) =>
          let totalIncome := match incomeRes with | some (t, _) => t | none => 0
          let totalExpenses := match expenseRes with | some (t, _) => t | none => 0
          let incomeRows : List JRow :=
            match incomeRes with
            | some (t, row) => [row, dataRow "Total Income" (toFixed2 t)]
            | none => [dataRow "No income data available" "0.00"]
          let expenseRows : List JRow :=
            match expenseRes with
            | some (t, row) => [row, dataRow "Total Expenses" (toFixed2 t)]
            | none => [dataRow "No expense data available" "0.00"]
          ({ Header := some
              { ReportName := some "Profit and Loss (Basic)",
                Time := some (fmtDate env.today.year env.today.month env.today.day),
                StartPeriod := params.start_date, EndPeriod := params.end_date,
                ReportBasis := none },
             Columns := some ⟨some [⟨some "Category", some "Account"⟩,
               ⟨some "Amount", some "Amount"⟩]⟩,
             Rows := some ⟨some (sectionRow "Income" :: incomeRows ++
               sectionRow "Expenses" :: expenseRows ++
               [sectionRow "Net Income",
                dataRow "Net Income" (toFixed2 (totalIncome - totalExpenses))])⟩,
             Fault := none, fault := none }, envE)

/-- The account rows of the alternative strategy (name and
`CurrentBalance || 0`). -/
def accountDataRows (accounts : List AccountRec) : List JRow :=
  accounts.map (fun a => JRow.mk (some "Data") none none
    (some [some a.Name,
      some (if jsFalsy a.CurrentBalance then "0" else a.CurrentBalance.getD "")]) none)

/-- Embedding of `getAlternativeProfitAndLossReport` (QuickBooks file lines
1244-1321): the account-balance aggregation strategy — one query for
income/revenue accounts, one for expense accounts, rendered as a
two-column report; a thrown query is re-thrown wrapped in the
alternative-method message. -/
def getAlternativeProfitAndLossReport (env : Env) (params : RParams) :
    Except String RData × Env :=
  match env.queryFn env.queryIdx with
  | .error e =>
      (.error ("Unable to retrieve P&L data using alternative method: " ++ e), bumpQuery env)
  | .ok incomePayload =>
      let env1 := bumpQuery env
      match env1.queryFn env1.queryIdx with
      | .error e =>
          (.error ("Unable to retrieve P&L data using alternative method: " ++ e),
            bumpQuery env1)
      | .ok expensePayload =>
          let incomeRows :=
            match incomePayload.QueryResponse with
            | some qr =>
                match qr.Account with
                | some accounts => accountDataRows accounts
                | none => []
            | none => []
          let expenseRows :=
            match expensePayload.QueryResponse with
            | some qr =>
                match qr.Account with
                | some accounts => accountDataRows accounts
                | none => []
            | none => []
          (.ok { Header := some
                  { ReportName := some "Profit and Loss",
                    Time := some (fmtDate env.today.year env.today.month env.today.day),
                    StartPeriod := params.start_date, EndPeriod := params.end_date,
                    ReportBasis := none },
                 Columns := some ⟨some [⟨some "Account", some "Account"⟩,
                   ⟨some "Amount", some "Amount"⟩]⟩,
                 Rows := some ⟨some (sectionRow "Income" :: incomeRows ++
                   sectionRow "Expenses" :: expenseRows)⟩,
                 Fault := none, fault := none }, bumpQuery env1)

/-- The authentication keywords of the error classification in the catch
of `getProfitAndLossReport` (lines 1201-1207). -/
def authKeywords : List String := ["authentication", "authorized", "token", "OAuth"]

/-- The permission keywords of the error classification (lines 1210-1216). -/
def permKeywords : List String := ["permission", "access", "insufficient", "denied"]

/-- Disjunctive keyword test over an error message. -/
def containsAny (msg : String) (kws : List String) : Bool :=
  kws.any (fun k => strContains msg k)

/-- The parameters `getProfitAndLossReport` assembles for the direct call
(lines 1126-1157): dates passed through when truthy (their
`toISOString`-based re-formatting is the identity on the modelled
`yyyy-MM-dd` strings and leaves unparseable strings unchanged via the
catch), forced `Accrual` accounting, and the `monthly` columns choice. -/
def plFormattedParams (p : RParams) : RParams :=
  { start_date := if jsFalsy p.start_date then none else p.start_date,
    end_date := if jsFalsy p.end_date then none else p.end_date,
    accounting_method := some "Accrual",
    columns := if p.columns = some "monthly" then some "monthly" else none }

/-- The catch block of `getProfitAndLossReport` (lines 1196-1234): an
error message matching the authentication keywords is rethrown as the
fixed authentication error, one matching the permission keywords as the
fixed permission error; any other error advances the chain to the
account-aggregation strategy and, if that throws too, to the basic
transaction strategy (which never throws, so the final all-methods-failed
throw is unreachable). -/
def plCatch (env : Env) (emsg : String) (params : RParams) : Except String RData × Env :=
  if containsAny emsg authKeywords then
    (.error "QuickBooks authentication error. Please reconnect to QuickBooks in settings.",
      env)
  else if containsAny emsg permKeywords then
    (.error "QuickBooks permission error. Your account may not have access to P&L reports.",
      env)
  else
    match getAlternativeProfitAndLossReport env params with
    | (.ok r, env1) => (.ok r, env1)
    | (.error _, env1) =>
        match getBasicTransactionPLReport env1 params with
        | (r, env2) => (.ok r, env2)

/-- Presence of the `Rows.Row` collection in a report payload (the
structural check `reportResponse.Rows && reportResponse.Rows.Row`). -/
def rowsRowPresent (d : RData) : Bool :=
  match d.Rows with
  | some rr => rr.Row.isSome
  | none => false

/-- Embedding of `getProfitAndLossReport` (QuickBooks file lines
1121-1235): the direct `getReport` strategy with SystemFault detection,
API-fault detection (capitalized `Fault` read even when only the lowercase
spelling is present, yielding `Unknown API error`), the structural-shape
fallback to the account-aggregation strategy, and the classifying catch. -/
def getProfitAndLossReport (env : Env) (params : RParams) : Except String RData × Env :=
  match getReport env "ProfitAndLoss" (plFormattedParams params) with
  | (.fault f, env1) => plCatch env1 f.message params
  | (.data d, env1) =>
      if d.Fault.isSome || d.fault.isSome then
        plCatch env1 ("QuickBooks API error: " ++
          (match d.Fault with
           | some fu =>
               (match fu.Error with
                | some (e0 :: _) => jsStr e0.Message
                | _ => "Unknown API error")
           | none => "Unknown API error")) params
      else if rowsRowPresent d = false then
        match getAlternativeProfitAndLossReport env1 params with
        | (.ok r, env2) => (.ok r, env2)
        | (.error e, env2) => plCatch env2 e params
      else (.ok d, env1)

/-! ## Claim C1 -/

/-- Structural wellformedness of a report tree: the `Rows.Row` collection
is present and the `Columns.Column` header is non-empty. -/
def wellformedReport (d : RData) : Bool :=
  rowsRowPresent d &&
    (match d.Columns with
     | some c =>
         match c.Column with
         | some l => decide (0 < l.length)
         | none => false
     | none => false)

theorem basic_wellformed (env : Env) (params : RParams) :
    wellformedReport (getBasicTransactionPLReport env params).1 = true := by
  unfold getBasicTransactionPLReport
  rcases hI : basicIncome env with ⟨envI, incomeRes⟩
  rcases hE : basicExpense envI with ⟨envE, expenseRes⟩
  simp [wellformedReport, rowsRowPresent]

theorem alt_wellformed (env : Env) (params : RParams) (r : RData) (env1 : Env)
    (h : getAlternativeProfitAndLossReport env params = (.ok r, env1)) :
    wellformedReport r = true := by
  unfold getAlternativeProfitAndLossReport at h
  rcases hq1 : env.queryFn env.queryIdx with e1 | ip
  · rw [hq1] at h
    simp at h
  · rw [hq1] at h
    dsimp only at h
    rcases hq2 : (bumpQuery env).queryFn (bumpQuery env).queryIdx with e2 | ep
    · rw [hq2] at h
      simp at h
    · rw [hq2] at h
      dsimp only at h
      simp only [Prod.mk.injEq, Except.ok.injEq] at h
      obtain ⟨h1, h2⟩ := h
      subst h1
      simp [wellformedReport, rowsRowPresent]

theorem wellformed_rows (d : RData) (h : wellformedReport d = true) :
    rowsRowPresent d = true := by
  simp only [wellformedReport, Bool.and_eq_true] at h
  exact h.1

theorem plCatch_cases (env : Env) (e : String) (params : RParams) :
    (plCatch env e params).1 =
      .error "QuickBooks authentication error. Please reconnect to QuickBooks in settings." ∨
    (plCatch env e params).1 =
      .error "QuickBooks permission error. Your account may not have access to P&L reports." ∨
    (∃ r env1, plCatch env e params = (.ok r, env1) ∧ wellformedReport r = true) := by
  unfold plCatch
  split_ifs
  · left
    rfl
  · right
    left
    rfl
  · right
    right
    rcases hA : getAlternativeProfitAndLossReport env params with ⟨res, env1⟩
    rcases res with e2 | r
    · rcases hB : getBasicTransactionPLReport env1 params with ⟨r2, env2⟩
      refine ⟨r2, env2, ?_, ?_⟩
      · dsimp only
        rw [hB]
      · have := basic_wellformed env1 params
        rw [hB] at this
        exact this
    · exact ⟨r, env1, rfl, alt_wellformed env params r env1 hA⟩

/-- C1 counterexample: with no OAuth access at all, every strategy of the
chain is bypassed: `getReport` returns its SystemFault envelope, whose
fixed message mentions authentication, so the chain's catch rethrows the
classified authentication error — `getProfitAndLossReport` throws to its
caller instead of returning a minimal skeleton. -/
theorem C1_counterexample :
    (getProfitAndLossReport
      ⟨false, false, true, fun _ => Except.error "boom", 0, fun _ => false, 0,
        fun _ => Except.error "boom", 0, ⟨2024, 3, 15⟩⟩
      ⟨none, none, none, none⟩).1 =
    Except.error
      "QuickBooks authentication error. Please reconnect to QuickBooks in settings." := rfl

/-- C1 (amended): the Report Fallback Chain can throw, but only the two
classified errors: every `getProfitAndLossReport` invocation either throws
the fixed authentication error, throws the fixed permission error, or
returns a tree whose `Rows` collection is present; and every tree produced
by the fallback strategies (account aggregation when it succeeds, and the
basic transaction strategy always, which itself never throws) additionally
has a non-empty two-column `Columns` header. -/
theorem C1_amended_chain_shape :
    (∀ (env : Env) (params : RParams),
      (getProfitAndLossReport env params).1 =
        .error "QuickBooks authentication error. Please reconnect to QuickBooks in settings." ∨
      (getProfitAndLossReport env params).1 =
        .error "QuickBooks permission error. Your account may not have access to P&L reports." ∨
      (∃ r env1, getProfitAndLossReport env params = (.ok r, env1) ∧
        rowsRowPresent r = true)) ∧
    (∀ (env : Env) (params : RParams),
      wellformedReport (getBasicTransactionPLReport env params).1 = true) ∧
    (∀ (env : Env) (params : RParams),
      (∃ e env1, getAlternativeProfitAndLossReport env params = (.error e, env1)) ∨
      (∃ r env1, getAlternativeProfitAndLossReport env params = (.ok r, env1) ∧
        wellformedReport r = true)) := by
  refine ⟨?_, fun env params => basic_wellformed env params, ?_⟩
  · intro env params
    unfold getProfitAndLossReport
    rcases hG : getReport env "ProfitAndLoss" (plFormattedParams params) with ⟨res, env1⟩
    have catchCase : ∀ (env2 : Env) (msg : String),
        (plCatch env2 msg params).1 =
          .error "QuickBooks authentication error. Please reconnect to QuickBooks in settings." ∨
        (plCatch env2 msg params).1 =
          .error "QuickBooks permission error. Your account may not have access to P&L reports." ∨
        (∃ r env3, plCatch env2 msg params = (.ok r, env3) ∧ rowsRowPresent r = true) := by
      intro env2 msg
      rcases plCatch_cases env2 msg params with h | h | ⟨r, env3, h1, h2⟩
      · exact Or.inl h
      · exact Or.inr (Or.inl h)
      · exact Or.inr (Or.inr ⟨r, env3, h1, wellformed_rows r h2⟩)
    rcases res with d | f
    · by_cases hF : (d.Fault.isSome || d.fault.isSome) = true
      · simp only [hF, if_true]
        exact catchCase env1 _
      · simp only [hF, if_false, Bool.false_eq_true]
        by_cases hR : rowsRowPresent d = false
        · simp only [hR, if_true]
          rcases hA : getAlternativeProfitAndLossReport env1 params with ⟨res2, env2⟩
          rcases res2 with e2 | r
          · exact catchCase env2 e2
          · exact Or.inr (Or.inr ⟨r, env2, rfl,
              wellformed_rows r (alt_wellformed env1 params r env2 hA)⟩)
        · simp only [hR, if_false]
          simp only [Bool.not_eq_false] at hR
          exact Or.inr (Or.inr ⟨d, env1, by simp [hR], hR⟩)
    · exact catchCase env1 f.message
  · intro env params
    rcases hA : getAlternativeProfitAndLossReport env params with ⟨res, env1⟩
    rcases res with e | r
    · exact Or.inl ⟨e, env1, rfl⟩
    · exact Or.inr ⟨r, env1, rfl, alt_wellformed env params r env1 hA⟩

/-! ## Claim C2 -/

/-- C2 counterexample: the direct strategy fails with a permission-denied
error (a 200 response whose payload carries a `Fault` with message
`Request denied`), and the chain does not advance to the account-balance
aggregation: it rethrows the fixed permission error to the caller, with no
entity query ever issued (the query counter stays at 0). -/
theorem C2_counterexample :
    (getProfitAndLossReport
      ⟨true, false, true,
        fun _ => Except.ok ⟨200, Except.ok
          { Header := none, Columns := none, Rows := some ⟨some []⟩,
            Fault := some ⟨some [⟨some "Request denied"⟩]⟩, fault := none }⟩, 0,
        fun _ => false, 0, fun _ => Except.error "unused", 0, ⟨2024, 3, 15⟩⟩
      ⟨none, none, none, none⟩).1 =
      Except.error
        "QuickBooks permission error. Your account may not have access to P&L reports." ∧
    (getProfitAndLossReport
      ⟨true, false, true,
        fun _ => Except.ok ⟨200, Except.ok
          { Header := none, Columns := none, Rows := some ⟨some []⟩,
            Fault := some ⟨some [⟨some "Request denied"⟩]⟩, fault := none }⟩, 0,
        fun _ => false, 0, fun _ => Except.error "unused", 0, ⟨2024, 3, 15⟩⟩
      ⟨none, none, none, none⟩).2.queryIdx = 0 :=
  ⟨rfl, rfl⟩

/-- C2 (amended): only a structurally incomplete success response (missing
`Rows.Row`, with no fault object) advances the chain from the direct
strategy to the account-balance aggregation.  Thrown direct-strategy
errors are classified instead: a message matching the permission keywords
(and not the authentication keywords) is rethrown as the fixed permission
error with no advancement; a message matching neither keyword set advances
to the account aggregation; and every `getReport`-mediated failure is
wrapped in the SystemFault message, which matches the authentication
keywords, so it is rethrown as the fixed authentication error. -/
theorem C2_amended_advancement :
    (∀ (env : Env) (params : RParams) (d : RData) (env1 : Env) (r : RData) (env2 : Env),
      getReport env "ProfitAndLoss" (plFormattedParams params) = (.data d, env1) →
      d.Fault = none → d.fault = none → rowsRowPresent d = false →
      getAlternativeProfitAndLossReport env1 params = (.ok r, env2) →
      getProfitAndLossReport env params = (.ok r, env2)) ∧
    (∀ (env : Env) (e : String) (params : RParams),
      containsAny e authKeywords = false → containsAny e permKeywords = true →
      plCatch env e params =
        (.error "QuickBooks permission error. Your account may not have access to P&L reports.",
          env)) ∧
    (∀ (env : Env) (e : String) (params : RParams) (r : RData) (env1 : Env),
      containsAny e authKeywords = false → containsAny e permKeywords = false →
      getAlternativeProfitAndLossReport env params = (.ok r, env1) →
      plCatch env e params = (.ok r, env1)) ∧
    (∀ (env : Env) (p : RParams) (f : SysFault) (env1 : Env),
      getReport env "ProfitAndLoss" p = (.fault f, env1) →
      containsAny f.message authKeywords = true) := by
  refine ⟨?_, ?_, ?_, ?_⟩
  · intro env params d env1 r env2 hG hF hf hR hA
    unfold getProfitAndLossReport
    rw [hG]
    dsimp only
    rw [hF, hf]
    simp only [Option.isSome_none, Bool.or_self, Bool.false_eq_true, if_false]
    rw [hR]
    simp only [if_pos rfl]
    rw [hA]
    simp
  · intro env e params hauth hperm
    unfold plCatch
    rw [if_neg (by simp [hauth]), if_pos hperm]
  · intro env e params r env1 hauth hperm hA
    unfold plCatch
    rw [if_neg (by simp [hauth]), if_neg (by simp [hperm])]
    rw [hA]
  · intro env p f env1 h
    unfold getReport at h
    rcases hb : getReportBody env "ProfitAndLoss" p with ⟨res, envb⟩
    rw [hb] at h
    rcases res with e | d
    · dsimp only at h
      simp only [Prod.mk.injEq, ReportOrFault.fault.injEq] at h
      obtain ⟨h1, h2⟩ := h
      subst h1
      dsimp only
      decide
    · simp at h

theorem C2_amended_advancement_witness :
    plCatch
      ⟨true, false, true, fun _ => Except.error "unused", 0, fun _ => false, 0,
        fun _ => Except.error "unused", 0, ⟨2024, 3, 15⟩⟩
      "Request denied" ⟨none, none, none, none⟩ =
      (Except.error
        "QuickBooks permission error. Your account may not have access to P&L reports.",
        ⟨true, false, true, fun _ => Except.error "unused", 0, fun _ => false, 0,
          fun _ => Except.error "unused", 0, ⟨2024, 3, 15⟩⟩) :=
  C2_amended_advancement.2.1 _ "Request denied" _ (by decide) (by decide)
